import Mathlib

/-!
Verification of the citation-resolution core of `main.py` (School LawBot API).

The Python source is shallowly embedded: strings are Lean `String`s manipulated
as `List Char` (Python `len`, slicing and regexes all operate on code points, as
does `List Char`), machine integers are `Nat`, exceptions are `Except`/`Option`,
and the network collaborators (`requests`, the registry, the rendered HTML
pages) are explicit `World` functions.  Python identifiers written in Korean are
romanised because Lean identifiers cannot contain Hangul; each definition's doc
comment names the original.  The regexes of `main.py` are embedded as
deterministic scanners: every pattern in the source is of the shape
`literal (\d+) literal ...` for which leftmost scanning plus maximal-munch digit
runs is exactly Python's backtracking semantics.  `\d`, `\s` and `str.strip`
are modelled on the ASCII range plus the common Unicode spaces; no claim in
this development exercises the exotic remainder of those Unicode classes.
-/

/-! ## Python string primitives on `List Char` -/

/-- Python `\d` (modelled as the ASCII digits). -/
def isDig (c : Char) : Bool := 48 ≤ c.toNat && c.toNat ≤ 57

/-- Python `\s` / `str.strip` whitespace (ASCII whitespace, NBSP, ideographic space). -/
def isPySpace (c : Char) : Bool :=
  c = ' ' || c = '\t' || c = '\n' || c = '\r' ||
  c = Char.ofNat 11 || c = Char.ofNat 12 || c = Char.ofNat 160 || c = Char.ofNat 12288

/-- `str.strip()` on a character list. -/
def stripL (cs : List Char) : List Char :=
  ((cs.dropWhile isPySpace).reverse.dropWhile isPySpace).reverse

/-- Python `str.strip()`. -/
def pyStrip (s : String) : String := String.mk (stripL s.toList)

/-- Is the first list a prefix of the second (decidable scanner, reduces in the kernel). -/
def isPrefixL : List Char → List Char → Bool
  | [], _ => true
  | _ :: _, [] => false
  | a :: as, b :: bs => a = b && isPrefixL as bs

/-- Scanner core of `str.replace`: replaces each non-overlapping occurrence of
`sub`, scanning left to right; the `Nat` argument counts characters still to be
skipped because they belong to the occurrence just replaced. -/
def replaceAux (sub repl : List Char) : List Char → Nat → List Char
  | [], _ => []
  | _ :: rest, k+1 => replaceAux sub repl rest k
  | c :: rest, 0 =>
    if isPrefixL sub (c :: rest) then repl ++ replaceAux sub repl rest (sub.length - 1)
    else c :: replaceAux sub repl rest 0

/-- Python `s.replace(sub, repl)`.  `main.py` never calls it with an empty
`sub`; for the empty pattern we return the string unchanged. -/
def pyReplace (sub repl s : String) : String :=
  if sub.toList.isEmpty then s else String.mk (replaceAux sub.toList repl.toList s.toList 0)

/-- Scanner for Python `sub in s` on lists. -/
def containsSubL (sub : List Char) : List Char → Bool
  | [] => isPrefixL sub []
  | c :: rest => isPrefixL sub (c :: rest) || containsSubL sub rest

/-- Python `sub in s` (substring containment). -/
def containsSub (sub s : String) : Bool := containsSubL sub.toList s.toList

/-- Value of a digit run, as read left to right by `int(...)` on a matched group. -/
def digitsValL (ds : List Char) : Nat := ds.foldl (fun a c => 10 * a + (c.toNat - 48)) 0

/-- Fuelled decimal printer (the fuel makes it structurally recursive, hence
kernel-reducible; `natToDecL` always supplies sufficient fuel). -/
def natToDecAux : Nat → Nat → List Char
  | 0, _ => []
  | f+1, n =>
    if n < 10 then [Char.ofNat (48 + n)]
    else natToDecAux f (n / 10) ++ [Char.ofNat (48 + n % 10)]

/-- Python `str(n)` for a nonnegative int, as a character list. -/
def natToDecL (n : Nat) : List Char := natToDecAux (n + 1) n

/-- Python `str(n)` for a nonnegative int. -/
def natToDec (n : Nat) : String := String.mk (natToDecL n)

/-! ## `parse_article_input` (main.py lines 92-102) -/

/-- The tuple `(no, gaji, hang, ho, is_branch)` returned by `parse_article_input`. -/
structure ParseResult where
  no : Option Nat
  gaji : Option Nat
  hang : Option Nat
  ho : Option Nat
  isBranch : Bool
deriving DecidableEq

/-- One optional regex group `(?:제(\d+)X)?` anchored at the head of `cs`
(`X` is `항` or `호`): on failure nothing is consumed. -/
def optNumGroup (tail : Char) (cs : List Char) : Option Nat × List Char :=
  match cs with
  | c0 :: r =>
    if c0 = '제' then
      let d := r.takeWhile isDig
      if d.isEmpty then (none, cs)
      else
        match r.dropWhile isDig with
        | c :: r2 => if c = tail then (some (digitsValL d), r2) else (none, cs)
        | [] => (none, cs)
    else (none, cs)
  | [] => (none, cs)

/-- `re.match` of `제(\d+)조의(\d+)(?:제(\d+)항)?(?:제(\d+)호)?` (anchored at the
start, trailing text ignored). -/
def matchBranchRegex (cs : List Char) : Option ParseResult :=
  match cs with
  | c0 :: r =>
    if c0 = '제' then
      let d1 := r.takeWhile isDig
      if d1.isEmpty then none
      else
        match r.dropWhile isDig with
        | c1 :: c2 :: r2 =>
          if c1 = '조' && c2 = '의' then
            let d2 := r2.takeWhile isDig
            if d2.isEmpty then none
            else
              let r3 := r2.dropWhile isDig
              let hr := optNumGroup '항' r3
              let or2 := optNumGroup '호' hr.2
              some ⟨some (digitsValL d1), some (digitsValL d2), hr.1, or2.1, true⟩
          else none
        | _ => none
    else none
  | [] => none

/-- `re.match` of `제(\d+)조(?:제(\d+)항)?(?:제(\d+)호)?`. -/
def matchPlainRegex (cs : List Char) : Option ParseResult :=
  match cs with
  | c0 :: r =>
    if c0 = '제' then
      let d1 := r.takeWhile isDig
      if d1.isEmpty then none
      else
        match r.dropWhile isDig with
        | c1 :: r2 =>
          if c1 = '조' then
            let hr := optNumGroup '항' r2
            let or2 := optNumGroup '호' hr.2
            some ⟨some (digitsValL d1), none, hr.1, or2.1, false⟩
          else none
        | [] => none
    else none
  | [] => none

/-- `parse_article_input(article_no_raw)`: strips spaces, tries the branch-article
regex then the plain-article regex, and returns the all-`None` tuple when
neither matches (Python `None` input is modelled by the empty string, which is
likewise falsy). -/
def parse_article_input (article_no_raw : String) : ParseResult :=
  if article_no_raw = "" then ⟨none, none, none, none, false⟩
  else
    let cs := (pyReplace " " "" article_no_raw).toList
    match matchBranchRegex cs with
    | some r => r
    | none =>
      match matchPlainRegex cs with
      | some r => r
      | none => ⟨none, none, none, none, false⟩

/-! ## `fix_article_no` (main.py lines 70-90) -/

/-- `re.match(r'^제\d+조(의\d+)?$', s)` (a full match: the pattern is anchored on
both sides). -/
def canonMatch (cs : List Char) : Bool :=
  match cs with
  | c0 :: r =>
    if c0 = '제' then
      let d1 := r.takeWhile isDig
      !d1.isEmpty &&
        (match r.dropWhile isDig with
         | c1 :: rest =>
           if c1 = '조' then
             match rest with
             | [] => true
             | c2 :: r2 =>
               if c2 = '의' then
                 let d2 := r2.takeWhile isDig
                 !d2.isEmpty && (r2.dropWhile isDig).isEmpty
               else false
           else false
         | [] => false)
    else false
  | [] => false

/-- Python `s.isdigit()` (restricted to ASCII digits, see the header note). -/
def pyIsDigitL (cs : List Char) : Bool := !cs.isEmpty && cs.all isDig

/-- `re.match(r"^(\d+)의(\d+)$", s)`, returning the two captured digit runs. -/
def nuiMatch (cs : List Char) : Option (List Char × List Char) :=
  let d1 := cs.takeWhile isDig
  if d1.isEmpty then none
  else
    match cs.dropWhile isDig with
    | c0 :: r2 =>
      if c0 = '의' then
        let d2 := r2.takeWhile isDig
        if d2.isEmpty then none
        else if (r2.dropWhile isDig).isEmpty then some (d1, d2) else none
      else none
    | [] => none

/-- `fix_article_no(article_no)`: `'14' → '제14조'`, `'17의3' → '제17조의3'`,
canonical input returned as is, otherwise best-effort patching of the
missing `제`/`조`. -/
def fix_article_no (article_no : String) : String :=
  let s := pyReplace " " "" article_no
  let cs := s.toList
  if canonMatch cs then s
  else if pyIsDigitL cs then "제" ++ s ++ "조"
  else
    match nuiMatch cs with
    | some p => "제" ++ String.mk p.1 ++ "조의" ++ String.mk p.2
    | none =>
      let s1 := if isPrefixL ("제".toList) cs then s else "제" ++ s
      if containsSub "조" s1 then s1 else s1 ++ "조"

/-! ## `normalize_article_no` (main.py lines 61-68) -/

/-- Leftmost match of `제(\d+)조조` at the head of the input, as
`(replacement 제\1조, further characters to skip)`; a returned skip count `k`
means the match consumed `k + 1` characters. -/
def jojoMatch1 (cs : List Char) : Option (List Char × Nat) :=
  match cs with
  | '제' :: r =>
    let d := r.takeWhile isDig
    if d.isEmpty then none
    else
      match r.dropWhile isDig with
      | '조' :: '조' :: _ => some ('제' :: (d ++ ['조']), d.length + 2)
      | _ => none
  | _ => none

/-- Match of `(\d+)조조` at the head of the input, replacement `\1조`. -/
def jojoMatch2 (cs : List Char) : Option (List Char × Nat) :=
  let d := cs.takeWhile isDig
  if d.isEmpty then none
  else
    match cs.dropWhile isDig with
    | '조' :: '조' :: _ => some (d ++ ['조'], d.length + 1)
    | _ => none

/-- `re.sub` scanner: tries the matcher at every position left to right,
emitting the replacement and skipping the matched characters. -/
def subAux (m : List Char → Option (List Char × Nat)) : List Char → Nat → List Char
  | [], _ => []
  | _ :: rest, k+1 => subAux m rest k
  | c :: rest, 0 =>
    match m (c :: rest) with
    | some (repl, k) => repl ++ subAux m rest k
    | none => c :: subAux m rest 0

/-- `normalize_article_no(article_no_raw)`: drop spaces and collapse the
`제N조조`/`N조조` typo (Python `None` input modelled by `""`, both falsy). -/
def normalize_article_no (s : String) : String :=
  if s = "" then s
  else
    let s1 := pyReplace " " "" s
    let s2 := String.mk (subAux jojoMatch1 s1.toList 0)
    String.mk (subAux jojoMatch2 s2.toList 0)

/-! ## Law-name resolution (main.py lines 43-59) -/

/-- The `KNOWN_LAWS` alias table. -/
def KNOWN_LAWS : List (String × String) :=
  [("학교폭력예방법", "학교폭력예방 및 대책에 관한 법률"),
   ("학교폭력예방법 시행령", "학교폭력예방 및 대책에 관한 법률 시행령"),
   ("개인정보보호법", "개인정보 보호법")]

/-- `resolve_full_law_name(law_name)`. -/
def resolve_full_law_name (law_name : String) : String :=
  let name := pyStrip (pyReplace " " "" law_name)
  match KNOWN_LAWS.find? (fun kv => name = pyReplace " " "" kv.1) with
  | some kv => kv.2
  | none => law_name

/-- `normalize_law_name(name)`. -/
def normalize_law_name (name : String) : String := pyStrip (pyReplace " " "" name)

/-! ## The `Citation` value of the spec (§3), and `format`/`parse` on it -/

/-- Citation data model of the spec: `articleNo`, optional branch, clause and
subclause numbers (a citation whose `articleNo` could not be resolved is
represented by `parseCitation` returning `none`). -/
structure Citation where
  articleNo : Nat
  branchNo : Option Nat
  clauseNo : Option Nat
  subclauseNo : Option Nat
deriving DecidableEq

/-- The numeral string (`"N"` or `"N의M"`) that denotes a citation's article in
the free-form input grammar accepted by `fix_article_no`. -/
def citationNumeralString (c : Citation) : String :=
  match c.branchNo with
  | none => natToDec c.articleNo
  | some m => natToDec c.articleNo ++ "의" ++ natToDec m

/-- `format` of the spec (§4.1, §8): `fix_article_no` producing the canonical
`제N조(의M)` form of a citation. -/
def formatCitation (c : Citation) : String := fix_article_no (citationNumeralString c)

/-- `parse` of the spec: `parse_article_input`, packaged as a `Citation` when
the article number resolves. -/
def parseCitation (s : String) : Option Citation :=
  match parse_article_input s with
  | ⟨some n, g, h, o, _⟩ => some ⟨n, g, h, o⟩
  | _ => none

example : parse_article_input "제14조의2제3항제1호" = ⟨some 14, some 2, some 3, some 1, true⟩ := by decide
example : parse_article_input "제14조제2호" = ⟨some 14, none, none, some 2, false⟩ := by decide
example : parse_article_input "abc" = ⟨none, none, none, none, false⟩ := by decide
example : fix_article_no "14" = "제14조" := by decide
example : fix_article_no "17의3" = "제17조의3" := by decide
example : fix_article_no "제14조의2" = "제14조의2" := by decide
example : fix_article_no "abc" = "제abc조" := by decide
example : normalize_article_no "제 14조조" = "제14조" := by decide
example : resolve_full_law_name "학교폭력예방법" = "학교폭력예방 및 대책에 관한 법률" := by decide
example : parseCitation "제3조" = some ⟨3, none, none, none⟩ := by decide

/-! ## `split_article_text_to_structure` (main.py lines 112-150) -/

/-- The character class `[\s:.\)]` consumed after a heading token. -/
def isTrail (c : Char) : Bool := isPySpace c || c = ':' || c = '.' || c = ')'

/-- Leftmost-anchored match of `(제\d+조의\d+)[\s:.\)]*`, as
`(captured heading, further characters to skip)`; skip count `k` means the
match consumed `k + 1` characters in total. -/
def matchGajiAt (cs : List Char) : Option (List Char × Nat) :=
  match cs with
  | '제' :: r =>
    let d1 := r.takeWhile isDig
    if d1.isEmpty then none
    else
      match r.dropWhile isDig with
      | '조' :: '의' :: r2 =>
        let d2 := r2.takeWhile isDig
        if d2.isEmpty then none
        else
          let tr := (r2.dropWhile isDig).takeWhile isTrail
          some ('제' :: (d1 ++ '조' :: '의' :: d2), d1.length + d2.length + tr.length + 2)
      | _ => none
  | _ => none

/-- Leftmost-anchored match of `(제\d+항)[\s:.\)]*`. -/
def matchHangAt (cs : List Char) : Option (List Char × Nat) :=
  match cs with
  | '제' :: r =>
    let d := r.takeWhile isDig
    if d.isEmpty then none
    else
      match r.dropWhile isDig with
      | '항' :: r2 =>
        let tr := r2.takeWhile isTrail
        some ('제' :: (d ++ ['항']), d.length + tr.length + 1)
      | _ => none
  | _ => none

/-- Leftmost-anchored match of `(제\d+호)[\s:.\)]*`. -/
def matchHoAt (cs : List Char) : Option (List Char × Nat) :=
  match cs with
  | '제' :: r =>
    let d := r.takeWhile isDig
    if d.isEmpty then none
    else
      match r.dropWhile isDig with
      | '호' :: r2 =>
        let tr := r2.takeWhile isTrail
        some ('제' :: (d ++ ['호']), d.length + tr.length + 1)
      | _ => none
  | _ => none

/-- `re.split` with one capture group, scanning with matcher `m`: returns the
text before the first match and the list of (captured heading, following text)
pairs — Python's `[p0, c1, p1, c2, p2, ...]` as `(p0, [(c1,p1), (c2,p2), ...])`.
The `Nat` argument counts characters still inside the previous match; the
accumulator collects the current piece in reverse. -/
def splitP (m : List Char → Option (List Char × Nat)) :
    List Char → Nat → List Char → List Char × List (List Char × List Char)
  | [], _, acc => (acc.reverse, [])
  | _ :: rest, k+1, acc => splitP m rest k acc
  | c :: rest, 0, acc =>
    match m (c :: rest) with
    | some (cap, k) =>
      let r := splitP m rest k []
      (acc.reverse, (cap, r.1) :: r.2)
    | none => splitP m rest 0 (c :: acc)

/-- Value stored under a clause (`항`) key: either the clause's plain text or a
`{'본문': ..., '호': {...}}` pair when subclause headings were found inside. -/
inductive HangVal where
  | plain : String → HangVal
  | withHo : String → List (String × String) → HangVal
deriving DecidableEq

/-- Result of `split_article_text_to_structure`: the Python function returns a
plain string (leaf), a dict keyed by branch-article headings, or a
`{'머릿말': ..., '항': {...}}` dict.  Python dicts are modelled as association
lists built with dict-assignment semantics (`insertAssoc`). -/
inductive Structure where
  | leaf : String → Structure
  | gajiNode : List (String × Structure) → Structure
  | hangNode : String → List (String × HangVal) → Structure

/-- Python dict assignment `d[k] = v` on an association list: overwrites in
place, keeping the original position of an existing key. -/
def insertAssoc {α : Type} : List (String × α) → String → α → List (String × α)
  | [], k, v => [(k, v)]
  | (k', v') :: t, k, v =>
    if k' = k then (k, v) :: t else (k', v') :: insertAssoc t k v

/-- The `호` (subclause) dict built from the split of one clause's text
(main.py lines 136-144). -/
def hoDictOf (pairs : List (List Char × List Char)) : List (String × String) :=
  pairs.foldl (fun acc p => insertAssoc acc (String.mk p.1) (String.mk (stripL p.2))) []

/-- The `항` (clause) dict built from the clause-level split
(main.py lines 130-146). -/
def hangDictOf (pairs : List (List Char × List Char)) : List (String × HangVal) :=
  pairs.foldl
    (fun acc p =>
      let ho := splitP matchHoAt p.2 0 []
      let v :=
        if ho.2.isEmpty then HangVal.plain (String.mk (stripL p.2))
        else HangVal.withHo (String.mk (stripL ho.1)) (hoDictOf ho.2)
      insertAssoc acc (String.mk p.1) v)
    []

/-- Fuelled embedding of `split_article_text_to_structure(text)`.  Recursion
happens only on the text following a branch-article heading, which is strictly
shorter than the input (each match consumes at least the nonempty heading), so
the fuel supplied by the wrapper never runs out (`splitStructFuel_stable`
below); fuel makes the definition structurally recursive and kernel-reducible. -/
def splitStructFuel : Nat → List Char → Structure
  | 0, cs => Structure.leaf (String.mk (stripL cs))
  | f+1, cs =>
    let g := splitP matchGajiAt cs 0 []
    if g.2.isEmpty then
      let h := splitP matchHangAt cs 0 []
      if h.2.isEmpty then Structure.leaf (String.mk (stripL cs))
      else Structure.hangNode (String.mk (stripL h.1)) (hangDictOf h.2)
    else
      Structure.gajiNode
        (g.2.foldl (fun acc p => insertAssoc acc (String.mk p.1) (splitStructFuel f p.2)) [])

/-- `split_article_text_to_structure(text)`. -/
def split_article_text_to_structure (text : String) : Structure :=
  splitStructFuel (text.toList.length + 1) text.toList

example : split_article_text_to_structure "  본문입니다  " = Structure.leaf "본문입니다" := rfl
example :
    split_article_text_to_structure "머리말 제1항 내용1 제2항 내용2" =
      Structure.hangNode "머리말"
        [("제1항", HangVal.plain "내용1"), ("제2항", HangVal.plain "내용2")] := rfl
example :
    split_article_text_to_structure "제1항 본문 제1호 일내용 제2호 이내용" =
      Structure.hangNode ""
        [("제1항", HangVal.withHo "본문" [("제1호", "일내용"), ("제2호", "이내용")])] := rfl
example :
    split_article_text_to_structure "서문 제1조의2 가지내용 제1항 첫항" =
      Structure.gajiNode
        [("제1조의2", Structure.hangNode "가지내용" [("제1항", HangVal.plain "첫항")])] := rfl

/-! ## Splitter lemmas -/

/-- If the matcher matches at no position of `cs`, the split returns the whole
input as the single piece. -/
theorem splitP_of_noMatch (m : List Char → Option (List Char × Nat)) :
    ∀ (cs acc : List Char), (∀ t ∈ cs.tails, m t = none) →
      splitP m cs 0 acc = (acc.reverse ++ cs, []) := by
  intro cs
  induction cs with
  | nil => intro acc _; simp [splitP]
  | cons c rest ih =>
    intro acc h
    have hself : m (c :: rest) = none := h (c :: rest) (by simp [List.mem_tails])
    have hrest : ∀ t ∈ rest.tails, m t = none := by
      intro t ht
      exact h t (by
        rw [List.mem_tails] at ht ⊢
        exact ht.trans (List.suffix_cons c rest))
    simp only [splitP, hself]
    rw [ih (c :: acc) hrest]
    simp

/-- The first piece of a split is no longer than accumulator plus input. -/
theorem splitP_fst_length (m : List Char → Option (List Char × Nat)) :
    ∀ (cs : List Char) (k : Nat) (acc : List Char),
      (splitP m cs k acc).1.length ≤ acc.length + cs.length := by
  intro cs
  induction cs with
  | nil => intro k acc; simp [splitP]
  | cons c rest ih =>
    intro k acc
    match k with
    | Nat.succ k' =>
      simp only [splitP]
      have h1 := ih k' acc
      simp only [List.length_cons]
      omega
    | 0 =>
      cases hm : m (c :: rest) with
      | some p =>
        simp only [splitP, hm]
        simp only [List.length_reverse, List.length_cons]
        omega
      | none =>
        simp only [splitP, hm]
        have h1 := ih 0 (c :: acc)
        simp only [List.length_cons] at h1 ⊢
        omega

/-- Every (heading, following-text) pair produced by a split has its text
strictly shorter than the input: the matched heading itself is consumed. -/
theorem splitP_snd_length (m : List Char → Option (List Char × Nat)) :
    ∀ (cs : List Char) (k : Nat) (acc : List Char) (pr : List Char × List Char),
      pr ∈ (splitP m cs k acc).2 → pr.2.length < cs.length := by
  intro cs
  induction cs with
  | nil => intro k acc pr h; simp [splitP] at h
  | cons c rest ih =>
    intro k acc pr h
    match k with
    | Nat.succ k' =>
      simp only [splitP] at h
      have := ih k' acc pr h
      simp
      omega
    | 0 =>
      simp only [splitP] at h
      cases hm : m (c :: rest) with
      | some p =>
        rw [hm] at h
        simp only [List.mem_cons] at h
        rcases h with h | h
        · have h1 : pr.2 = (splitP m rest p.2 []).1 := by rw [h]
          have h2 := splitP_fst_length m rest p.2 []
          simp at h2
          rw [h1]
          simp
          omega
        · have := ih p.2 [] pr h
          simp
          omega
      | none =>
        rw [hm] at h
        have := ih 0 (c :: acc) pr h
        simp
        omega

/-- Any sufficient fuel computes the same structure: the fuelled embedding is
the total recursive function of the Python source. -/
theorem splitStructFuel_stable :
    ∀ (f f' : Nat) (cs : List Char), cs.length < f → cs.length < f' →
      splitStructFuel f cs = splitStructFuel f' cs := by
  intro f
  induction f with
  | zero => intro f' cs h; omega
  | succ a ih =>
    intro f' cs h h'
    match f' with
    | 0 => omega
    | Nat.succ b =>
      simp only [splitStructFuel]
      by_cases hg : (splitP matchGajiAt cs 0 []).2.isEmpty = true
      · simp [hg]
      · simp only [hg, if_false, Bool.false_eq_true]
        simp [hg]
        apply List.foldl_ext
        intro acc p hp
        have hlt := splitP_snd_length matchGajiAt cs 0 [] p hp
        rw [ih b p.2 (by omega) (by omega)]

/-! ## Claims C1 and C7: the decomposer -/

/-- The branch-article-level split pairs of a text (`gaji_splits` without the
leading piece). -/
def decomposePairsGaji (s : String) : List (List Char × List Char) :=
  (splitP matchGajiAt s.toList 0 []).2

/-- The clause-level split of a text (`hang_splits[0]` and the pairs). -/
def decomposeHang (s : String) : List Char × List (List Char × List Char) :=
  splitP matchHangAt s.toList 0 []

/-- One-step unfolding of `split_article_text_to_structure` (definitional). -/
theorem splitStruct_eq (s : String) : split_article_text_to_structure s =
    (if (decomposePairsGaji s).isEmpty then
      (if (decomposeHang s).2.isEmpty then Structure.leaf (pyStrip s)
       else Structure.hangNode (String.mk (stripL (decomposeHang s).1))
         (hangDictOf (decomposeHang s).2))
     else
      Structure.gajiNode
        ((decomposePairsGaji s).foldl
          (fun acc p => insertAssoc acc (String.mk p.1) (splitStructFuel s.toList.length p.2))
          [])) := rfl

/-- `text` contains no occurrence of the heading pattern scanned by `m`. -/
def noHeading (m : List Char → Option (List Char × Nat)) (s : String) : Prop :=
  ∀ t ∈ s.toList.tails, m t = none

instance noHeadingDecidable (m : List Char → Option (List Char × Nat)) (s : String) :
    Decidable (noHeading m s) :=
  inferInstanceAs (Decidable (∀ t ∈ s.toList.tails, m t = none))

/-- All strings stored in a `HangVal` (preface and subclause headings/bodies). -/
def hangValStrings : HangVal → List String
  | HangVal.plain s => [s]
  | HangVal.withHo b l => b :: l.foldl (fun acc q => acc ++ [q.1, q.2]) []

/-- All strings stored in a structure (headings, prefaces, bodies), explored to
depth `fuel` (the structures in this development have depth at most three). -/
def collectStrings : Nat → Structure → List String
  | 0, _ => []
  | _, Structure.leaf s => [s]
  | f+1, Structure.gajiNode l =>
    l.foldl (fun acc p => acc ++ [p.1] ++ collectStrings f p.2) []
  | _, Structure.hangNode pre l =>
    pre :: l.foldl (fun acc q => acc ++ [q.1] ++ hangValStrings q.2) []

/-- Claim C1: decomposition is total — the embedding
`split_article_text_to_structure` is a total Lean function, and the Python
original terminates by the same measure (`splitP_snd_length`: each recursive
call receives strictly fewer characters) and contains no raising operation —
and on text with no branch-article (`제N조의M`), clause (`제N항`) or subclause
(`제N호`) heading the result is a plain leaf string equal to the trimmed
input. -/
theorem C1_decomposition_total_leaf (text : String)
    (hg : noHeading matchGajiAt text) (hh : noHeading matchHangAt text)
    (_hho : noHeading matchHoAt text) :
    split_article_text_to_structure text = Structure.leaf (pyStrip text) := by
  have h1 : decomposePairsGaji text = [] := by
    show (splitP matchGajiAt text.toList 0 []).2 = []
    rw [splitP_of_noMatch matchGajiAt text.toList [] hg]
  have h2 : (decomposeHang text).2 = [] := by
    show (splitP matchHangAt text.toList 0 []).2 = []
    rw [splitP_of_noMatch matchHangAt text.toList [] hh]
  rw [splitStruct_eq, h1, h2]
  simp

/-- Witness for C1: a concrete headingless text decomposes to its trimmed
leaf. -/
theorem C1_decomposition_total_leaf_witness :
    split_article_text_to_structure " 일반 본문 텍스트 " = Structure.leaf "일반 본문 텍스트" := by
  have h := C1_decomposition_total_leaf " 일반 본문 텍스트 " (by decide) (by decide) (by decide)
  exact h

/-- Claim C7 counterexample: at the branch-article level the text before the
first heading (here `"머리말"`) is discarded — the result is a dict of the
(heading, content) pairs only, and the preface string occurs nowhere in it. -/
theorem C7_counterexample :
    split_article_text_to_structure "머리말 제1조의2 내용" =
      Structure.gajiNode [("제1조의2", Structure.leaf "내용")] ∧
    "머리말" ∉ collectStrings 10 (split_article_text_to_structure "머리말 제1조의2 내용") := by
  exact ⟨rfl, by decide⟩

/-- Claim C7 (amended): the preface is kept at the clause level — when clause
headings match (and no branch-article heading does), the decomposer attaches
the trimmed text before the first clause heading as the `머릿말` field — but at
the branch-article level it is discarded: two texts whose branch-article split
yields the same (heading, content) pairs decompose identically, whatever text
preceded the first branch-article heading. -/
theorem C7_amended_preface_levels :
    (∀ s : String, decomposePairsGaji s = [] → (decomposeHang s).2 ≠ [] →
      split_article_text_to_structure s =
        Structure.hangNode (String.mk (stripL (decomposeHang s).1))
          (hangDictOf (decomposeHang s).2)) ∧
    (∀ s t : String, decomposePairsGaji s = decomposePairsGaji t →
      decomposePairsGaji s ≠ [] →
      split_article_text_to_structure s = split_article_text_to_structure t) := by
  constructor
  · intro s hgs hhs
    rw [splitStruct_eq, hgs]
    simp [hhs]
  · intro s t hpairs hne
    rw [splitStruct_eq s, splitStruct_eq t]
    cases hX : decomposePairsGaji s with
    | nil => exact absurd hX hne
    | cons a l =>
      have hXt : decomposePairsGaji t = a :: l := by rw [← hpairs]; exact hX
      rw [hXt]
      simp only [List.isEmpty_cons, Bool.false_eq_true, if_false]
      apply congrArg
      apply List.foldl_ext
      intro acc p hp
      have hp1 : p ∈ (splitP matchGajiAt s.toList 0 []).2 := by
        show p ∈ decomposePairsGaji s
        rw [hX]; exact hp
      have hp2 : p ∈ (splitP matchGajiAt t.toList 0 []).2 := by
        show p ∈ decomposePairsGaji t
        rw [hXt]; exact hp
      have l1 := splitP_snd_length matchGajiAt s.toList 0 [] p hp1
      have l2 := splitP_snd_length matchGajiAt t.toList 0 [] p hp2
      rw [splitStructFuel_stable s.toList.length t.toList.length p.2 l1 l2]

/-- Witness for the amended C7: the clause-level preface of a concrete text is
kept, and two concrete texts differing only before the first branch-article
heading decompose identically. -/
theorem C7_amended_preface_levels_witness :
    split_article_text_to_structure "머리말 제1항 내용" =
      Structure.hangNode "머리말" [("제1항", HangVal.plain "내용")] ∧
    split_article_text_to_structure "머리 제1조의2 끝" =
      split_article_text_to_structure "다른글 제1조의2 끝" := by
  constructor
  · exact C7_amended_preface_levels.1 "머리말 제1항 내용" (by decide) (by decide)
  · exact C7_amended_preface_levels.2 "머리 제1조의2 끝" "다른글 제1조의2 끝" (by decide) (by decide)

/-! ## Decimal-numeral lemmas for the round-trip claims -/

/-- A digit character differs from any non-digit character. -/
theorem ne_of_isDig {c : Char} (x : Char) (h : isDig c = true) (hx : isDig x = false) :
    c ≠ x := by
  intro he
  rw [he, hx] at h
  exact Bool.noConfusion h

theorem natToDecAux_digits :
    ∀ (f n : Nat), n < f → ∀ c ∈ natToDecAux f n, isDig c = true := by
  intro f
  induction f with
  | zero => intro n h; omega
  | succ f ih =>
    intro n hn c hc
    by_cases h10 : n < 10
    · simp only [natToDecAux, if_pos h10, List.mem_singleton] at hc
      subst hc
      interval_cases n <;> decide
    · simp only [natToDecAux, if_neg h10, List.mem_append, List.mem_singleton] at hc
      rcases hc with hc | hc
      · have hdiv : n / 10 < f := by
          have h1 : n / 10 < n := Nat.div_lt_self (by omega) (by omega)
          omega
        exact ih (n / 10) hdiv c hc
      · subst hc
        have hm : n % 10 < 10 := Nat.mod_lt n (by omega)
        set m := n % 10 with hmm
        interval_cases m <;> decide

theorem natToDecAux_ne_nil : ∀ (f n : Nat), n < f → natToDecAux f n ≠ [] := by
  intro f n h
  match f with
  | Nat.succ f' =>
    by_cases h10 : n < 10
    · simp [natToDecAux, if_pos h10]
    · simp [natToDecAux, if_neg h10]

theorem natToDecL_digits (n : Nat) : ∀ c ∈ natToDecL n, isDig c = true :=
  natToDecAux_digits (n + 1) n (Nat.lt_succ_self n)

theorem natToDecL_ne_nil (n : Nat) : natToDecL n ≠ [] :=
  natToDecAux_ne_nil (n + 1) n (Nat.lt_succ_self n)

theorem natToDecL_isEmpty (n : Nat) : (natToDecL n).isEmpty = false := by
  cases h : natToDecL n with
  | nil => exact absurd h (natToDecL_ne_nil n)
  | cons c r => rfl

/-- Reading back the printed decimal gives the number: `int(str(n)) == n`. -/
theorem natToDecAux_val : ∀ (f n : Nat), n < f → digitsValL (natToDecAux f n) = n := by
  intro f
  induction f with
  | zero => intro n h; omega
  | succ f ih =>
    intro n hn
    by_cases h10 : n < 10
    · simp only [natToDecAux, if_pos h10, digitsValL, List.foldl_cons, List.foldl_nil]
      have : (Char.ofNat (48 + n)).toNat - 48 = n := by interval_cases n <;> decide
      omega
    · have hdiv : n / 10 < f := by
        have h1 : n / 10 < n := Nat.div_lt_self (by omega) (by omega)
        omega
      have hm : n % 10 < 10 := Nat.mod_lt n (by omega)
      have hchar : (Char.ofNat (48 + n % 10)).toNat - 48 = n % 10 := by
        set m := n % 10 with hmm
        interval_cases m <;> decide
      simp only [natToDecAux, if_neg h10, digitsValL, List.foldl_append, List.foldl_cons,
        List.foldl_nil]
      have hih := ih (n / 10) hdiv
      simp only [digitsValL] at hih
      rw [hih, hchar]
      omega

theorem natToDecL_val (n : Nat) : digitsValL (natToDecL n) = n :=
  natToDecAux_val (n + 1) n (Nat.lt_succ_self n)

/-! ## `takeWhile`/`dropWhile` helpers -/

theorem takeWhile_all {p : Char → Bool} :
    ∀ (l : List Char), (∀ c ∈ l, p c = true) → l.takeWhile p = l := by
  intro l
  induction l with
  | nil => intro _; rfl
  | cons c r ih =>
    intro h
    have hc : p c = true := h c (by simp)
    simp [List.takeWhile_cons, hc, ih (fun x hx => h x (by simp [hx]))]

theorem dropWhile_all {p : Char → Bool} :
    ∀ (l : List Char), (∀ c ∈ l, p c = true) → l.dropWhile p = [] := by
  intro l
  induction l with
  | nil => intro _; rfl
  | cons c r ih =>
    intro h
    have hc : p c = true := h c (by simp)
    simp [List.dropWhile_cons, hc, ih (fun x hx => h x (by simp [hx]))]

theorem takeWhile_append_stop {p : Char → Bool} {x : Char} :
    ∀ (l1 l2 : List Char), (∀ c ∈ l1, p c = true) → p x = false →
      (l1 ++ x :: l2).takeWhile p = l1 := by
  intro l1 l2 h hx
  induction l1 with
  | nil => simp [List.takeWhile_cons, hx]
  | cons c r ih =>
    have hc : p c = true := h c (by simp)
    simp only [List.cons_append, List.takeWhile_cons, hc, if_true]
    rw [ih (fun y hy => h y (by simp [hy]))]

theorem dropWhile_append_stop {p : Char → Bool} {x : Char} :
    ∀ (l1 l2 : List Char), (∀ c ∈ l1, p c = true) → p x = false →
      (l1 ++ x :: l2).dropWhile p = x :: l2 := by
  intro l1 l2 h hx
  induction l1 with
  | nil => simp [List.dropWhile_cons, hx]
  | cons c r ih =>
    have hc : p c = true := h c (by simp)
    simp only [List.cons_append, List.dropWhile_cons, hc, if_true]
    exact ih (fun y hy => h y (by simp [hy]))

/-! ## String-level plumbing -/

theorem stringMk_toList (s : String) : String.mk s.toList = s := rfl

theorem toList_append (s t : String) : (s ++ t).toList = s.toList ++ t.toList := rfl

theorem ne_empty_of_toList_cons {s : String} {c : Char} {l : List Char}
    (h : s.toList = c :: l) : s ≠ "" := by
  intro he
  subst he
  exact List.noConfusion h

/-- `s.replace(" ", repl)` leaves a space-free string unchanged. -/
theorem replaceAux_space_id (repl : List Char) :
    ∀ (l : List Char), (∀ c ∈ l, c ≠ ' ') → replaceAux [' '] repl l 0 = l := by
  intro l
  induction l with
  | nil => intro _; rfl
  | cons c r ih =>
    intro h
    have hc : c ≠ ' ' := h c (by simp)
    have hpre : isPrefixL [' '] (c :: r) = false := by
      simp [isPrefixL]
      intro he
      exact absurd he.symm hc
    simp only [replaceAux, hpre, Bool.false_eq_true, if_false]
    rw [ih (fun y hy => h y (by simp [hy]))]

theorem pyReplace_space_id (s : String) (h : ∀ c ∈ s.toList, c ≠ ' ') :
    pyReplace " " "" s = s := by
  show String.mk (replaceAux [' '] [] s.toList 0) = s
  rw [replaceAux_space_id [] s.toList h]
  exact stringMk_toList s

/-! ## Canonical-form computations for `fix_article_no` and `parse_article_input` -/

theorem isDig_ne_space {c : Char} (h : isDig c = true) : c ≠ ' ' :=
  ne_of_isDig ' ' h (by decide)

theorem natToDec_no_space (n : Nat) : ∀ c ∈ (natToDec n).toList, c ≠ ' ' := by
  intro c hc
  exact isDig_ne_space (natToDecL_digits n c hc)

/-- `canonMatch` fails on any string not starting with `제`. -/
theorem canonMatch_cons_ne {c : Char} (r : List Char) (hc : c ≠ '제') :
    canonMatch (c :: r) = false := by
  simp [canonMatch, hc]

theorem pyIsDigit_natToDec (n : Nat) : pyIsDigitL (natToDecL n) = true := by
  simp [pyIsDigitL, natToDecL_isEmpty, List.all_eq_true]
  exact natToDecL_digits n

theorem canonMatch_natToDec (n : Nat) : canonMatch (natToDecL n) = false := by
  cases hl : natToDecL n with
  | nil => exact absurd hl (natToDecL_ne_nil n)
  | cons c r =>
    have hcd : isDig c = true := natToDecL_digits n c (by rw [hl]; exact List.mem_cons_self c r)
    exact canonMatch_cons_ne r (ne_of_isDig '제' hcd (by decide))

/-- `fix_article_no(str(n)) = 제N조`. -/
theorem fix_article_no_digits (n : Nat) :
    fix_article_no (natToDec n) = "제" ++ natToDec n ++ "조" := by
  simp only [fix_article_no]
  rw [pyReplace_space_id (natToDec n) (natToDec_no_space n)]
  have hc : canonMatch (natToDec n).data = false := canonMatch_natToDec n
  have hd : pyIsDigitL (natToDec n).data = true := pyIsDigit_natToDec n
  simp [hc, hd]

/-- The character list of `str(n) ++ "의" ++ str(m)`. -/
theorem data_nui (n m : Nat) :
    (natToDec n ++ "의" ++ natToDec m).data = natToDecL n ++ '의' :: natToDecL m := by
  show (natToDecL n ++ ['의']) ++ natToDecL m = natToDecL n ++ '의' :: natToDecL m
  simp [List.append_assoc]

theorem nui_no_space (n m : Nat) :
    ∀ c ∈ (natToDec n ++ "의" ++ natToDec m).toList, c ≠ ' ' := by
  intro c hc
  have hc2 : c ∈ natToDecL n ++ '의' :: natToDecL m := by
    rw [← data_nui n m]; exact hc
  simp only [List.mem_append, List.mem_cons] at hc2
  rcases hc2 with hc2 | hc2 | hc2
  · exact isDig_ne_space (natToDecL_digits n c hc2)
  · subst hc2; decide
  · exact isDig_ne_space (natToDecL_digits m c hc2)

theorem canonMatch_nui (n m : Nat) :
    canonMatch (natToDecL n ++ '의' :: natToDecL m) = false := by
  cases hl : natToDecL n with
  | nil => exact absurd hl (natToDecL_ne_nil n)
  | cons c r =>
    have hcd : isDig c = true := natToDecL_digits n c (by rw [hl]; exact List.mem_cons_self c r)
    rw [List.cons_append]
    exact canonMatch_cons_ne _ (ne_of_isDig '제' hcd (by decide))

theorem pyIsDigit_nui (n m : Nat) :
    pyIsDigitL (natToDecL n ++ '의' :: natToDecL m) = false := by
  have hall : (natToDecL n ++ '의' :: natToDecL m).all isDig = false := by
    cases ha : (natToDecL n ++ '의' :: natToDecL m).all isDig with
    | false => rfl
    | true =>
      have hui : isDig '의' = true := List.all_eq_true.mp ha '의' (by simp)
      exact absurd hui (by decide)
  simp only [pyIsDigitL, hall]
  simp

theorem nuiMatch_nui (n m : Nat) :
    nuiMatch (natToDecL n ++ '의' :: natToDecL m) = some (natToDecL n, natToDecL m) := by
  simp only [nuiMatch]
  rw [takeWhile_append_stop (natToDecL n) (natToDecL m) (natToDecL_digits n) (by decide)]
  rw [dropWhile_append_stop (natToDecL n) (natToDecL m) (natToDecL_digits n) (by decide)]
  rw [natToDecL_isEmpty n]
  simp only [Bool.false_eq_true, if_false]
  rw [takeWhile_all (natToDecL m) (natToDecL_digits m)]
  rw [dropWhile_all (natToDecL m) (natToDecL_digits m)]
  rw [natToDecL_isEmpty m]
  simp

/-- `fix_article_no("N의M") = 제N조의M`. -/
theorem fix_article_no_nui (n m : Nat) :
    fix_article_no (natToDec n ++ "의" ++ natToDec m) =
      "제" ++ natToDec n ++ "조의" ++ natToDec m := by
  simp only [fix_article_no]
  rw [pyReplace_space_id _ (nui_no_space n m)]
  have htl : (natToDec n ++ "의" ++ natToDec m).toList = natToDecL n ++ '의' :: natToDecL m :=
    data_nui n m
  rw [htl]
  rw [canonMatch_nui n m, pyIsDigit_nui n m, nuiMatch_nui n m]
  simp only [Bool.false_eq_true, if_false]
  rfl

theorem data_canonPlain (n : Nat) :
    ("제" ++ natToDec n ++ "조").toList = '제' :: (natToDecL n ++ ['조']) := by
  show (['제'] ++ natToDecL n) ++ ['조'] = '제' :: (natToDecL n ++ ['조'])
  simp [List.append_assoc]

theorem data_canonBranch (n m : Nat) :
    ("제" ++ natToDec n ++ "조의" ++ natToDec m).toList =
      '제' :: (natToDecL n ++ '조' :: '의' :: natToDecL m) := by
  show ((['제'] ++ natToDecL n) ++ ['조', '의']) ++ natToDecL m = _
  simp [List.append_assoc]

theorem canonPlain_no_space (n : Nat) : ∀ c ∈ ("제" ++ natToDec n ++ "조").toList, c ≠ ' ' := by
  intro c hc
  rw [data_canonPlain] at hc
  simp only [List.mem_cons, List.mem_append, List.mem_singleton, List.not_mem_nil,
    or_false] at hc
  rcases hc with hc | hc | hc
  · subst hc; decide
  · exact isDig_ne_space (natToDecL_digits n c hc)
  · subst hc; decide

theorem canonBranch_no_space (n m : Nat) :
    ∀ c ∈ ("제" ++ natToDec n ++ "조의" ++ natToDec m).toList, c ≠ ' ' := by
  intro c hc
  rw [data_canonBranch] at hc
  simp only [List.mem_cons, List.mem_append] at hc
  rcases hc with hc | hc | hc | hc | hc
  · subst hc; decide
  · exact isDig_ne_space (natToDecL_digits n c hc)
  · subst hc; decide
  · subst hc; decide
  · exact isDig_ne_space (natToDecL_digits m c hc)

theorem matchBranch_on_plain (n : Nat) :
    matchBranchRegex ('제' :: (natToDecL n ++ ['조'])) = none := by
  have ht : (natToDecL n ++ ['조']).takeWhile isDig = natToDecL n :=
    takeWhile_append_stop (natToDecL n) [] (natToDecL_digits n) (by decide)
  have hdw : (natToDecL n ++ ['조']).dropWhile isDig = ['조'] :=
    dropWhile_append_stop (natToDecL n) [] (natToDecL_digits n) (by decide)
  simp only [matchBranchRegex, ht, hdw, natToDecL_isEmpty]
  simp

theorem matchPlain_on_plain (n : Nat) :
    matchPlainRegex ('제' :: (natToDecL n ++ ['조'])) =
      some ⟨some n, none, none, none, false⟩ := by
  have ht : (natToDecL n ++ ['조']).takeWhile isDig = natToDecL n :=
    takeWhile_append_stop (natToDecL n) [] (natToDecL_digits n) (by decide)
  have hdw : (natToDecL n ++ ['조']).dropWhile isDig = ['조'] :=
    dropWhile_append_stop (natToDecL n) [] (natToDecL_digits n) (by decide)
  simp only [matchPlainRegex, ht, hdw, natToDecL_isEmpty]
  simp [optNumGroup, natToDecL_val]

theorem matchBranch_on_branch (n m : Nat) :
    matchBranchRegex ('제' :: (natToDecL n ++ '조' :: '의' :: natToDecL m)) =
      some ⟨some n, some m, none, none, true⟩ := by
  have ht : (natToDecL n ++ '조' :: '의' :: natToDecL m).takeWhile isDig = natToDecL n :=
    takeWhile_append_stop (natToDecL n) ('의' :: natToDecL m) (natToDecL_digits n) (by decide)
  have hdw : (natToDecL n ++ '조' :: '의' :: natToDecL m).dropWhile isDig =
      '조' :: '의' :: natToDecL m :=
    dropWhile_append_stop (natToDecL n) ('의' :: natToDecL m) (natToDecL_digits n) (by decide)
  simp only [matchBranchRegex, ht, hdw, natToDecL_isEmpty,
    takeWhile_all (natToDecL m) (natToDecL_digits m),
    dropWhile_all (natToDecL m) (natToDecL_digits m)]
  simp [optNumGroup, natToDecL_val]

/-- `parse_article_input` on `제N조`. -/
theorem parse_canonical_plain (n : Nat) :
    parse_article_input ("제" ++ natToDec n ++ "조") = ⟨some n, none, none, none, false⟩ := by
  have htl := data_canonPlain n
  have hne : ("제" ++ natToDec n ++ "조") ≠ "" := ne_empty_of_toList_cons htl
  simp only [parse_article_input]
  rw [if_neg hne]
  rw [pyReplace_space_id _ (canonPlain_no_space n), htl]
  rw [matchBranch_on_plain n, matchPlain_on_plain n]

/-- `parse_article_input` on `제N조의M`. -/
theorem parse_canonical_branch (n m : Nat) :
    parse_article_input ("제" ++ natToDec n ++ "조의" ++ natToDec m) =
      ⟨some n, some m, none, none, true⟩ := by
  have htl := data_canonBranch n m
  have hne : ("제" ++ natToDec n ++ "조의" ++ natToDec m) ≠ "" := ne_empty_of_toList_cons htl
  simp only [parse_article_input]
  rw [if_neg hne]
  rw [pyReplace_space_id _ (canonBranch_no_space n m), htl]
  rw [matchBranch_on_branch n m]

/-- `fix_article_no` recognises its own plain output as canonical. -/
theorem fix_canonical_plain (n : Nat) :
    fix_article_no ("제" ++ natToDec n ++ "조") = "제" ++ natToDec n ++ "조" := by
  have htl := data_canonPlain n
  have ht : (natToDecL n ++ ['조']).takeWhile isDig = natToDecL n :=
    takeWhile_append_stop (natToDecL n) [] (natToDecL_digits n) (by decide)
  have hdw : (natToDecL n ++ ['조']).dropWhile isDig = ['조'] :=
    dropWhile_append_stop (natToDecL n) [] (natToDecL_digits n) (by decide)
  have hcm : canonMatch ('제' :: (natToDecL n ++ ['조'])) = true := by
    simp only [canonMatch, ht, hdw, natToDecL_isEmpty]
    simp
  simp only [fix_article_no]
  rw [pyReplace_space_id _ (canonPlain_no_space n)]
  rw [htl, hcm]
  simp

/-- `fix_article_no` recognises its own branch output as canonical. -/
theorem fix_canonical_branch (n m : Nat) :
    fix_article_no ("제" ++ natToDec n ++ "조의" ++ natToDec m) =
      "제" ++ natToDec n ++ "조의" ++ natToDec m := by
  have htl := data_canonBranch n m
  have ht : (natToDecL n ++ '조' :: '의' :: natToDecL m).takeWhile isDig = natToDecL n :=
    takeWhile_append_stop (natToDecL n) ('의' :: natToDecL m) (natToDecL_digits n) (by decide)
  have hdw : (natToDecL n ++ '조' :: '의' :: natToDecL m).dropWhile isDig =
      '조' :: '의' :: natToDecL m :=
    dropWhile_append_stop (natToDecL n) ('의' :: natToDecL m) (natToDecL_digits n) (by decide)
  have hcm : canonMatch ('제' :: (natToDecL n ++ '조' :: '의' :: natToDecL m)) = true := by
    simp only [canonMatch, ht, hdw, natToDecL_isEmpty,
      takeWhile_all (natToDecL m) (natToDecL_digits m),
      dropWhile_all (natToDecL m) (natToDecL_digits m)]
    simp
  simp only [fix_article_no]
  rw [pyReplace_space_id _ (canonBranch_no_space n m)]
  rw [htl, hcm]
  simp

/-- `parse ∘ format` recovers article and branch numbers and nothing else. -/
theorem parseCitation_format (c : Citation) :
    parseCitation (formatCitation c) = some ⟨c.articleNo, c.branchNo, none, none⟩ := by
  obtain ⟨n, b, cl, su⟩ := c
  cases b with
  | none =>
    show parseCitation (fix_article_no (natToDec n)) = _
    rw [fix_article_no_digits n]
    unfold parseCitation
    rw [parse_canonical_plain n]
  | some m =>
    show parseCitation (fix_article_no (natToDec n ++ "의" ++ natToDec m)) = _
    rw [fix_article_no_nui n m]
    unfold parseCitation
    rw [parse_canonical_branch n m]

/-! ## Claims C2 and C9: round trip and idempotence -/

/-- Claim C2 counterexample: the clause and subclause numbers of a citation are
not encoded by `fix_article_no`, so the round trip loses them: for
`c = 제14조 제3항 제2호`, `format(c) = "제14조"` and `parse(format(c))` is the
clause-free citation, not `c`. -/
theorem C2_counterexample :
    parseCitation (formatCitation ⟨14, none, some 3, some 2⟩) ≠
      some ⟨14, none, some 3, some 2⟩ ∧
    formatCitation ⟨14, none, some 3, some 2⟩ = "제14조" ∧
    parseCitation "제14조" = some ⟨14, none, none, none⟩ := by decide

/-- Claim C2 (amended): `parse(format(c)) = c` holds for every citation whose
clause and subclause numbers are null — i.e. on the article/branch fragment
that `fix_article_no` actually formats. -/
theorem C2_amended_roundtrip (c : Citation) (h1 : c.clauseNo = none)
    (h2 : c.subclauseNo = none) :
    parseCitation (formatCitation c) = some c := by
  rw [parseCitation_format c]
  obtain ⟨n, b, cl, su⟩ := c
  have h1' : cl = none := h1
  have h2' : su = none := h2
  subst h1'
  subst h2'
  rfl

/-- Witness for the amended C2 at the branch citation `제7조의2`. -/
theorem C2_amended_roundtrip_witness :
    parseCitation (formatCitation ⟨7, some 2, none, none⟩) = some ⟨7, some 2, none, none⟩ :=
  C2_amended_roundtrip ⟨7, some 2, none, none⟩ rfl rfl

/-- Claim C9: `format` is idempotent — `format(parse(format(c))) = format(c)`
for every citation, and `fix_article_no` returns its own canonical output
(`제N조` / `제N조의M`, the form produced by `fix_article_no` and re-parsed by
`parse_article_input`) unchanged. -/
theorem C9_format_idempotent :
    (∀ c : Citation,
      (parseCitation (formatCitation c)).map formatCitation = some (formatCitation c)) ∧
    (∀ c : Citation, fix_article_no (formatCitation c) = formatCitation c) := by
  constructor
  · intro c
    rw [parseCitation_format c]
    show some (formatCitation ⟨c.articleNo, c.branchNo, none, none⟩) = some (formatCitation c)
    obtain ⟨n, b, cl, su⟩ := c
    rfl
  · intro c
    obtain ⟨n, b, cl, su⟩ := c
    cases b with
    | none =>
      show fix_article_no (fix_article_no (natToDec n)) = fix_article_no (natToDec n)
      rw [fix_article_no_digits n, fix_canonical_plain n]
    | some m =>
      show fix_article_no (fix_article_no (natToDec n ++ "의" ++ natToDec m)) =
        fix_article_no (natToDec n ++ "의" ++ natToDec m)
      rw [fix_article_no_nui n m, fix_canonical_branch n m]

/-! ## Claim C5: the data-model invariant of `parse_article_input` -/

theorem matchBranchRegex_no {cs : List Char} {r : ParseResult}
    (h : matchBranchRegex cs = some r) : r.no ≠ none := by
  unfold matchBranchRegex at h
  iterate 8 (all_goals (try simp only [] at h); all_goals (try split at h))
  all_goals first
    | exact Option.noConfusion h
    | (injection h with h2; subst h2; simp)

theorem matchPlainRegex_no {cs : List Char} {r : ParseResult}
    (h : matchPlainRegex cs = some r) : r.no ≠ none := by
  unfold matchPlainRegex at h
  iterate 8 (all_goals (try simp only [] at h); all_goals (try split at h))
  all_goals first
    | exact Option.noConfusion h
    | (injection h with h2; subst h2; simp)

/-- `parse_article_input` either resolves the article number or returns the
all-`None` tuple. -/
theorem parse_article_input_shape (s : String) :
    (parse_article_input s).no ≠ none ∨
      parse_article_input s = ⟨none, none, none, none, false⟩ := by
  unfold parse_article_input
  by_cases hs : s = ""
  · right; simp [hs]
  · simp only [if_neg hs]
    cases hb : matchBranchRegex ((pyReplace " " "" s).toList) with
    | some r => left; simpa using matchBranchRegex_no hb
    | none =>
      cases hp : matchPlainRegex ((pyReplace " " "" s).toList) with
      | some r => left; simpa using matchPlainRegex_no hp
      | none => right; rfl

/-- Claim C5 counterexample: the 항 and 호 regex groups are independently
optional, so `"제14조제2호"` parses with a subclause number but no clause
number — the invariant "`subclauseNo` set only if `clauseNo` set" fails. -/
theorem C5_counterexample :
    parse_article_input "제14조제2호" = ⟨some 14, none, none, some 2, false⟩ ∧
    (parse_article_input "제14조제2호").ho ≠ none ∧
    (parse_article_input "제14조제2호").hang = none := by decide

/-- Claim C5 (amended): the clause number and the subclause number are each set
only if the article number is resolved; the subclause number does not require
the clause number. -/
theorem C5_amended_invariant (s : String) :
    ((parse_article_input s).hang ≠ none → (parse_article_input s).no ≠ none) ∧
    ((parse_article_input s).ho ≠ none → (parse_article_input s).no ≠ none) := by
  rcases parse_article_input_shape s with h | h
  · exact ⟨fun _ => h, fun _ => h⟩
  · rw [h]
    exact ⟨fun hx => absurd rfl hx, fun hx => absurd rfl hx⟩

/-- Witness for the amended C5 on a concrete subclause-only citation. -/
theorem C5_amended_invariant_witness :
    (parse_article_input "제14조제2호").ho ≠ none ∧
      (parse_article_input "제14조제2호").no ≠ none :=
  ⟨by decide, (C5_amended_invariant "제14조제2호").2 (by decide)⟩

/-! ## Claim C6: candidate selection in `get_law_id` (main.py lines 152-182) -/

/-- One `<law>` element of the registry search response (`lawSearch.do`),
with the fields read by `get_law_id`: `법령명한글`, `법령약칭명`, `법령명`,
`현행연혁코드`, `법령ID` (`law.get(...)` on an absent key gives `None`). -/
structure LawEntry where
  lawNameKo : Option String
  lawAbbrev : Option String
  lawNameField : Option String
  statusCode : Option String
  lawId : Option String
deriving DecidableEq

/-- `name_fields = [law.get("법령명한글",""), law.get("법령약칭명",""), law.get("법령명","")]`. -/
def entryNameFields (law : LawEntry) : List String :=
  [law.lawNameKo.getD "", law.lawAbbrev.getD "", law.lawNameField.getD ""]

def isExactNameMatch (normalized : String) (law : LawEntry) : Bool :=
  (entryNameFields law).any (fun name => normalize_law_name name = normalized)

/-- `law.get("현행연혁코드") == "현행"`. -/
def isCurrentLaw (law : LawEntry) : Bool := law.statusCode = some "현행"

/-- First loop of `get_law_id`: the first law any of whose name fields
normalizes to the query; `some result` means the loop returned (with the law's
`법령ID`, which may itself be `None`). -/
def exactLoop (normalized : String) : List LawEntry → Option (Option String)
  | [] => none
  | law :: rest =>
    if isExactNameMatch normalized law then some law.lawId
    else exactLoop normalized rest

/-- Second loop of `get_law_id`: the first law flagged `현행`. -/
def currentLoop : List LawEntry → Option (Option String)
  | [] => none
  | law :: rest => if isCurrentLaw law then some law.lawId else currentLoop rest

/-- The candidate-selection core of `get_law_id`: exact-name loop, then the
currently-in-force loop, then `None`. -/
def get_law_id_select (normalized : String) (laws : List LawEntry) : Option String :=
  match exactLoop normalized laws with
  | some result => result
  | none =>
    match currentLoop laws with
    | some result => result
    | none => none

/-- Fuelled naive Levenshtein distance (structural, kernel-reducible). -/
def levAux : Nat → List Char → List Char → Nat
  | 0, xs, ys => xs.length + ys.length
  | _+1, [], ys => ys.length
  | _+1, xs, [] => xs.length
  | f+1, x :: xs, y :: ys =>
    if x = y then levAux f xs ys
    else 1 + min (levAux f xs ys) (min (levAux f (x :: xs) ys) (levAux f (x :: xs) (y :: ys)))

def levDist (a b : List Char) : Nat := levAux (a.length + b.length + 1) a b

/-- Modelled from the spec: the similarity test of the fuzzy tier (§4.2 step 3
(b)) — the spec names neither the similarity measure nor the threshold, so we
instantiate it with the Levenshtein ratio `1 - d/maxlen ≥ 0.6` (difflib's
conventional cutoff), in exact Nat arithmetic. -/
def isFuzzyClose (a b : String) : Bool :=
  let la := a.toList
  let lb := b.toList
  let L := max la.length lb.length
  decide (6 * L ≤ 10 * (L - levDist la lb))

/-- Modelled from the spec: the candidate's best (smallest) distance to the
query over its known name fields. -/
def entryDist (normalized : String) (law : LawEntry) : Nat :=
  ((entryNameFields law).map
    (fun nm => levDist (normalize_law_name nm).toList normalized.toList)).foldl min
    (normalized.toList.length + 1)

/-- Modelled from the spec: tier (b) of §4.2 step 3 — the closest fuzzy match
above the similarity threshold (first among ties). -/
def closestFuzzy (normalized : String) (laws : List LawEntry) : Option LawEntry :=
  let close := laws.filter
    (fun law => (entryNameFields law).any
      (fun nm => isFuzzyClose (normalize_law_name nm) normalized))
  close.foldl
    (fun best law =>
      match best with
      | none => some law
      | some b => if entryDist normalized law < entryDist normalized b then some law else best)
    none

/-- Modelled from the spec: the full three-tier selection of §4.2 step 3 —
(a) exact normalized-name match, (b) closest fuzzy match above the threshold,
(c) any candidate flagged currently in force, else null.  Tiers (a) and (c)
coincide with the code; tier (b) does not exist in the code. -/
def get_law_id_spec (normalized : String) (laws : List LawEntry) : Option String :=
  match exactLoop normalized laws with
  | some result => result
  | none =>
    match closestFuzzy normalized laws with
    | some law => law.lawId
    | none =>
      match currentLoop laws with
      | some result => result
      | none => none

/-- Claim C6 counterexample: a single candidate whose name is one edit away
from the query (similarity 0.75 ≥ any reasonable threshold), not flagged
현행 — the spec's three-tier selection returns it via the fuzzy tier, but
`get_law_id` returns null: the code has no fuzzy tier. -/
theorem C6_counterexample :
    get_law_id_select "가나다" [⟨some "가나다라", some "", some "", some "과거", some "77"⟩]
      = none ∧
    get_law_id_spec "가나다" [⟨some "가나다라", some "", some "", some "과거", some "77"⟩]
      = some "77" := by decide

theorem exactLoop_eq_find (normalized : String) :
    ∀ laws : List LawEntry,
      exactLoop normalized laws =
        (laws.find? (isExactNameMatch normalized)).map (fun law => law.lawId) := by
  intro laws
  induction laws with
  | nil => rfl
  | cons law rest ih =>
    by_cases hl : isExactNameMatch normalized law
    · simp [exactLoop, List.find?_cons, hl]
    · simp only [exactLoop, List.find?_cons]
      rw [if_neg hl]
      simp only [hl]
      simpa using ih

theorem currentLoop_eq_find :
    ∀ laws : List LawEntry,
      currentLoop laws = (laws.find? isCurrentLaw).map (fun law => law.lawId) := by
  intro laws
  induction laws with
  | nil => rfl
  | cons law rest ih =>
    by_cases hl : isCurrentLaw law
    · simp [currentLoop, List.find?_cons, hl]
    · simp only [currentLoop, List.find?_cons]
      rw [if_neg hl]
      simp only [hl]
      simpa using ih

/-- Claim C6 (amended): `get_law_id` selects by a two-tier precedence — (a) the
first candidate with an exact normalized-name match on 법령명한글, 법령약칭명 or
법령명, returning its 법령ID (which may itself be absent), otherwise (c) the
first candidate flagged 현행; there is no fuzzy tier, and the result is null
iff neither tier selects a candidate or the selected candidate has no 법령ID. -/
theorem C6_amended_two_tier (normalized : String) (laws : List LawEntry) :
    (∀ law, laws.find? (isExactNameMatch normalized) = some law →
      get_law_id_select normalized laws = law.lawId) ∧
    (laws.find? (isExactNameMatch normalized) = none →
      ∀ law, laws.find? isCurrentLaw = some law →
        get_law_id_select normalized laws = law.lawId) ∧
    (laws.find? (isExactNameMatch normalized) = none →
      laws.find? isCurrentLaw = none →
      get_law_id_select normalized laws = none) := by
  refine ⟨?_, ?_, ?_⟩
  · intro law hfind
    unfold get_law_id_select
    rw [exactLoop_eq_find, hfind]
    rfl
  · intro hnone law hfind
    unfold get_law_id_select
    rw [exactLoop_eq_find, hnone, currentLoop_eq_find, hfind]
    rfl
  · intro hnone hnone2
    unfold get_law_id_select
    rw [exactLoop_eq_find, hnone, currentLoop_eq_find, hnone2]
    rfl

/-- Witness for the amended C6: each tier exercised at a concrete candidate
list. -/
theorem C6_amended_two_tier_witness :
    get_law_id_select "가나다" [⟨some "가나다", none, none, none, some "9"⟩] = some "9" ∧
    get_law_id_select "가나다" [⟨some "다른법", none, none, some "현행", some "5"⟩] = some "5" ∧
    get_law_id_select "가나다" [⟨some "다른법", none, none, some "과거", some "5"⟩] = none := by
  refine ⟨?_, ?_, ?_⟩
  · exact (C6_amended_two_tier "가나다" _).1 ⟨some "가나다", none, none, none, some "9"⟩ (by decide)
  · exact (C6_amended_two_tier "가나다" _).2.1 (by decide)
      ⟨some "다른법", none, none, some "현행", some "5"⟩ (by decide)
  · exact (C6_amended_two_tier "가나다" _).2.2 (by decide) (by decide)

/-! ## `make_article_link` (main.py lines 104-110) -/

/-- UTF-8 encoding of one code point, as byte values. -/
def utf8Bytes (c : Char) : List Nat :=
  let n := c.toNat
  if n < 128 then [n]
  else if n < 2048 then [192 + n / 64, 128 + n % 64]
  else if n < 65536 then [224 + n / 4096, 128 + (n / 64) % 64, 128 + n % 64]
  else [240 + n / 262144, 128 + (n / 4096) % 64, 128 + (n / 64) % 64, 128 + n % 64]

def hexDigitChar (n : Nat) : Char :=
  if n < 10 then Char.ofNat (48 + n) else Char.ofNat (55 + n)

/-- `urllib.parse.quote` treatment of one byte with `safe=''`: unreserved
characters stay, everything else is percent-encoded (uppercase hex). -/
def quoteByte (b : Nat) : List Char :=
  if (65 ≤ b ∧ b ≤ 90) ∨ (97 ≤ b ∧ b ≤ 122) ∨ (48 ≤ b ∧ b ≤ 57) ∨
      b = 45 ∨ b = 46 ∨ b = 95 ∨ b = 126 then
    [Char.ofNat b]
  else '%' :: [hexDigitChar (b / 16), hexDigitChar (b % 16)]

/-- `urllib.parse.quote(s, safe='')`. -/
def pyQuote (s : String) : String :=
  String.mk
    ((s.toList.foldr (fun c acc => utf8Bytes c ++ acc) []).foldr
      (fun b acc => quoteByte b ++ acc) [])

/-- `make_article_link(law_name, article_no)` (the article number is falsy when
`None` or empty). -/
def make_article_link (law_name : String) (article_no : Option String) : String :=
  let law_url_name := pyQuote (pyReplace " " "" law_name)
  match article_no with
  | some a =>
    if a ≠ "" then
      "https://www.law.go.kr/법령/" ++ law_url_name ++ "/" ++ pyQuote (fix_article_no a)
    else "https://www.law.go.kr/법령/" ++ law_url_name
  | none => "https://www.law.go.kr/법령/" ++ law_url_name

example : make_article_link "개인정보 보호법" none =
    "https://www.law.go.kr/법령/%EA%B0%9C%EC%9D%B8%EC%A0%95%EB%B3%B4%EB%B3%B4%ED%98%B8%EB%B2%95" := by
  decide

/-! ## `extract_article_with_full` (main.py lines 223-316) -/

/-- One `호` element (`호번호`, `호내용`). -/
structure HoEntry where
  hoNum : Option String
  hoContent : Option String
deriving DecidableEq

/-- One `항` element (`항번호`, `항내용`, `호`); xmltodict's single-dict case is
normalized to a one-element list, as the code does with `isinstance` checks. -/
structure ClauseEntry where
  hangNum : Option String
  hangContent : Option String
  hos : List HoEntry
deriving DecidableEq

/-- One article element (`조문번호`, `조문내용`, `항`). -/
structure ArticleEntry where
  articleNum : Option String
  articleContent : Option String
  clauses : List ClauseEntry
deriving DecidableEq

/-- The parsed `법령/조문` document: the six article-list paths scanned by
`extract_article_with_full` (`조문단위`, `조문조단위`, `가지조문단위`,
`가지조문조단위`, `별표단위`, `부칙단위`), each already normalized to a list. -/
structure LawDoc where
  joMunDanwi : List ArticleEntry
  joMunJoDanwi : List ArticleEntry
  gajiJoMunDanwi : List ArticleEntry
  gajiJoMunJoDanwi : List ArticleEntry
  byeolPyoDanwi : List ArticleEntry
  buChikDanwi : List ArticleEntry
deriving DecidableEq

/-- `all_articles`, concatenated in the path order of the source. -/
def allArticles (doc : LawDoc) : List ArticleEntry :=
  doc.joMunDanwi ++ doc.joMunJoDanwi ++ doc.gajiJoMunDanwi ++ doc.gajiJoMunJoDanwi ++
    doc.byeolPyoDanwi ++ doc.buChikDanwi

/-- One network interaction of the embedded handlers. -/
inductive NetCall where
  | lawSearch : String → NetCall
  | lawService : String → NetCall
  | htmlGet : String → NetCall
deriving DecidableEq

/-- The `circled_nums` table. -/
def circledNums : List (String × String) :=
  [("①", "1"), ("②", "2"), ("③", "3"), ("④", "4"), ("⑤", "5"),
   ("⑥", "6"), ("⑦", "7"), ("⑧", "8"), ("⑨", "9"), ("⑩", "10")]

/-- `circled_nums.get(cnum, cnum)`. -/
def circledGet (cnum : String) : String :=
  match circledNums.find? (fun p => p.1 = cnum) with
  | some p => p.2
  | none => cnum

/-- The 5-tuple returned by `extract_article_with_full`:
`(내용, 조문전체, available, canonical_article_no, 구조화)`. -/
structure ExtractResult where
  content : String
  fullArticle : String
  available : List String
  canonical : Option String
  structured : Option Structure

/-- Python truthiness of an optional int (`if ho:`): `None` and `0` are falsy. -/
def pyTruthyNum : Option Nat → Bool
  | some n => decide (n ≠ 0)
  | none => false

/-- `', '.join(l)`. -/
def joinSep (sep : String) : List String → String
  | [] => ""
  | [x] => x
  | x :: y :: rest => x ++ sep ++ joinSep sep (y :: rest)

/-- The scan loop over `all_articles`: collects `available` (up to and
including the first match) and returns the first article whose normalized
`조문번호` equals the normalized request. -/
def findMatchLoop (article_no_raw : String) :
    List ArticleEntry → List String → List String × Option ArticleEntry
  | [], avail => (avail, none)
  | a :: rest, avail =>
    let nr := a.articleNum.getD "0"
    let avail2 := avail ++ [nr]
    if normalize_article_no nr = normalize_article_no article_no_raw then (avail2, some a)
    else findMatchLoop article_no_raw rest avail2

/-- The clause scan (`for clause in clauses: ...`), with the circled-number
mapping applied to `항번호`. -/
def findClause (hang : Nat) : List ClauseEntry → Option ClauseEntry
  | [] => none
  | c :: rest =>
    let cnum := pyStrip (c.hangNum.getD "")
    if circledGet cnum = natToDec hang ∨ cnum = natToDec hang then some c
    else findClause hang rest

/-- The subclause scan (`for subclause in subclauses: ...`). -/
def findHo (ho : Nat) : List HoEntry → Option HoEntry
  | [] => none
  | h :: rest =>
    if pyStrip (h.hoNum.getD "") = natToDec ho then some h else findHo ho rest

/-- The matched-article block of `extract_article_with_full`
(main.py lines 258-291): every path returns without touching the HTML
fallback.  When `law_name_full` is `None` the 안내 branch would raise inside
`make_article_link` and be caught by the surrounding `except`. -/
def processMatched (article : ArticleEntry) (article_no_raw : String)
    (law_name_full : Option String) (hang ho : Option Nat)
    (avail : List String) : ExtractResult :=
  let nr := article.articleNum.getD "0"
  let full := article.articleContent.getD "내용 없음"
  if containsSub "의" nr then
    if full ≠ "" ∧ full ≠ "내용 없음" then
      ⟨full, full, avail, some nr, some (split_article_text_to_structure full)⟩
    else
      match law_name_full with
      | some lnf =>
        ⟨"해당 가지조문(조문번호: " ++ nr ++ ")은 시스템에서 자동 추출이 불가합니다.<br>" ++
          "아래 국가법령정보센터 바로가기를 확인해 주세요.<br>" ++
          "<a href=\x27" ++ make_article_link lnf (some article_no_raw) ++
          "\x27>국가법령정보센터 바로가기</a>", "", avail, some nr, none⟩
      | none =>
        ⟨"파싱 오류: \x27NoneType\x27 object has no attribute \x27replace\x27",
          "", [], none, none⟩
  else
    match hang with
    | none => ⟨full, full, avail, some nr, some (split_article_text_to_structure full)⟩
    | some hv =>
      match findClause hv article.clauses with
      | some clause =>
        let clause_content := clause.hangContent.getD "내용 없음"
        match ho with
        | some hoV =>
          if hoV ≠ 0 then
            match findHo hoV clause.hos with
            | some sub => ⟨sub.hoContent.getD "내용 없음", full, avail, some nr, none⟩
            | none => ⟨"요청한 호를 찾을 수 없습니다.", full, avail, some nr, none⟩
          else ⟨clause_content, full, avail, some nr, none⟩
        | none => ⟨clause_content, full, avail, some nr, none⟩
      | none => ⟨"요청한 항을 찾을 수 없습니다.", full, avail, some nr, none⟩

/-- `extract_article_with_full(xml_text, article_no_raw, clause_no,
subclause_no, law_name_full)`.  The `xml` argument is the outcome of
`xmltodict.parse(xml_text)` (the collaborator boundary); an `error` models the
exception caught by the function's `try/except`.  The HTML fallback is passed
as a function so that its (non-)invocation is observable; the second component
of the result is the trace of network calls made.  `clause_no` and
`subclause_no` are accepted and ignored exactly as in the source, which reads
the clause/subclause numbers from `parse_article_input(article_no_raw)`
instead. -/
def extract_article_with_full
    (fb : String → String → (String × Option Structure) × List NetCall)
    (xml : Except String LawDoc) (article_no_raw : String)
    (_clause_no _subclause_no : Option String) (law_name_full : Option String) :
    ExtractResult × List NetCall :=
  let pr := parse_article_input article_no_raw
  match xml with
  | Except.error e => (⟨"파싱 오류: " ++ e, "", [], none, none⟩, [])
  | Except.ok doc =>
    match findMatchLoop article_no_raw (allArticles doc) [] with
    | (avail, some article) =>
      (processMatched article article_no_raw law_name_full pr.hang pr.ho avail, [])
    | (avail, none) =>
      match law_name_full with
      | some lnf =>
        if lnf ≠ "" ∧ article_no_raw ≠ "" then
          let fbRes := fb lnf article_no_raw
          let html_text := fbRes.1.1
          (⟨"API/DB에 조문 본문이 없어 웹페이지에서 추출했습니다.<br>" ++
              "아래 국가법령정보센터 바로가기도 참고하세요.<br>" ++
              "<a href=\x27" ++ make_article_link lnf (some article_no_raw) ++
              "\x27>국가법령정보센터 바로가기</a><br><br>본문:<br>" ++
              (if html_text ≠ "" then html_text else "웹페이지에서도 본문 추출 실패"),
            if html_text ≠ "" then html_text else "",
            avail, none, fbRes.1.2⟩, fbRes.2)
        else
          (⟨"요청한 조문(" ++ article_no_raw ++ ")을 찾을 수 없습니다.<br>" ++
              "실제 조회 가능한 조문번호: " ++
              (if avail ≠ [] then joinSep ", " avail else "없음") ++ "<br>" ++
              "아래 국가법령정보센터에서 직접 확인하세요.<br>" ++
              "<a href=\x27" ++ make_article_link lnf none ++ "\x27>법령 바로가기</a>",
            "", avail, none, none⟩, [])
      | none =>
        (⟨"파싱 오류: \x27NoneType\x27 object has no attribute \x27replace\x27",
          "", [], none, none⟩, [])

/-! ## Claim C3: the registry tier short-circuits -/

theorem findMatchLoop_some (raw : String) :
    ∀ (l : List ArticleEntry) (avail : List String),
      (∃ a ∈ l, normalize_article_no (a.articleNum.getD "0") = normalize_article_no raw) →
      ∃ av art, findMatchLoop raw l avail = (av, some art) := by
  intro l
  induction l with
  | nil => intro avail h; simp at h
  | cons a rest ih =>
    intro avail h
    by_cases hm : normalize_article_no (a.articleNum.getD "0") = normalize_article_no raw
    · exact ⟨avail ++ [a.articleNum.getD "0"], a, by simp [findMatchLoop, hm]⟩
    · have h2 : ∃ b ∈ rest, normalize_article_no (b.articleNum.getD "0") =
          normalize_article_no raw := by
        rcases h with ⟨b, hb, hbe⟩
        rcases List.mem_cons.mp hb with hb | hb
        · subst hb; exact absurd hbe hm
        · exact ⟨b, hb, hbe⟩
      rcases ih (avail ++ [a.articleNum.getD "0"]) h2 with ⟨av, art, hav⟩
      exact ⟨av, art, by simp [findMatchLoop, hm, hav]⟩

/-- Claim C3: when the structured registry document contains an article whose
normalized number equals the normalized request, `extract_article_with_full`
answers from that article alone — the result does not depend on the HTML
scrape fallback (which is therefore never consulted), and its network-call
trace is empty, so the answer comes from the registry tier, never scrape or
any later tier. -/
theorem C3_registry_short_circuit (doc : LawDoc) (raw : String)
    (cn sn : Option String) (lnf : Option String)
    (fb fb' : String → String → (String × Option Structure) × List NetCall)
    (h : ∃ a ∈ allArticles doc,
      normalize_article_no (a.articleNum.getD "0") = normalize_article_no raw) :
    extract_article_with_full fb (Except.ok doc) raw cn sn lnf =
      extract_article_with_full fb' (Except.ok doc) raw cn sn lnf ∧
    (extract_article_with_full fb (Except.ok doc) raw cn sn lnf).2 = [] := by
  rcases findMatchLoop_some raw (allArticles doc) [] h with ⟨av, art, hav⟩
  unfold extract_article_with_full
  dsimp only
  rw [hav]
  exact ⟨rfl, rfl⟩

/-- A one-article registry document for the C3 witness. -/
def C3doc : LawDoc := ⟨[⟨some "2", some "이 조문 내용", []⟩], [], [], [], [], []⟩

/-- Witness for C3: with a matching article present, two fallbacks that differ
in value and in network behaviour give identical results and an empty trace. -/
theorem C3_registry_short_circuit_witness :
    extract_article_with_full (fun _ _ => (("x", none), [NetCall.htmlGet "u"]))
        (Except.ok C3doc) "2" none none (some "개인정보 보호법") =
      extract_article_with_full (fun _ _ => (("y", none), []))
        (Except.ok C3doc) "2" none none (some "개인정보 보호법") ∧
    (extract_article_with_full (fun _ _ => (("x", none), [NetCall.htmlGet "u"]))
        (Except.ok C3doc) "2" none none (some "개인정보 보호법")).2 = [] :=
  C3_registry_short_circuit C3doc "2" none none (some "개인정보 보호법") _ _
    ⟨⟨some "2", some "이 조문 내용", []⟩, by decide, by decide⟩

/-! ## JSON values and `add_privacy_notice` (main.py lines 13-23) -/

/-- JSON values as serialized by the endpoints (dicts are association lists in
insertion order, as in Python). -/
inductive JVal where
  | jnull : JVal
  | jbool : Bool → JVal
  | jnum : Int → JVal
  | jstr : String → JVal
  | jarr : List JVal → JVal
  | jobj : List (String × JVal) → JVal

def PRIVACY_URL : String := "https://github.com/KD-YOON/privacy-policy"

def PRIVACY_NOTICE : String :=
  "본 서비스의 개인정보 처리방침은 https://github.com/KD-YOON/privacy-policy 에서 확인할 수 있습니다. " ++
  "※ 동의/허용 안내 반복 방지는 반드시 프론트(웹/앱/챗봇)에서 동의 이력 저장 및 제어해야 합니다."

/-- `add_privacy_notice(data)`: sets the two keys when `data` is a dict,
returns anything else unchanged. -/
def add_privacy_notice (data : JVal) : JVal :=
  match data with
  | JVal.jobj kvs =>
    JVal.jobj
      (insertAssoc (insertAssoc kvs "privacy_notice" (JVal.jstr PRIVACY_NOTICE))
        "privacy_policy_url" (JVal.jstr PRIVACY_URL))
  | other => other

def lookupKey (kvs : List (String × JVal)) (k : String) : Option JVal :=
  match kvs.find? (fun p => p.1 = k) with
  | some p => some p.2
  | none => none

def getStrField (v : JVal) (k : String) : Option String :=
  match v with
  | JVal.jobj kvs =>
    match lookupKey kvs k with
    | some (JVal.jstr s) => some s
    | _ => none
  | _ => none

/-- A JSON value carries the privacy fields whenever it is an object. -/
def hasPrivacy (v : JVal) : Bool :=
  match v with
  | JVal.jobj _ =>
    decide (getStrField v "privacy_notice" = some PRIVACY_NOTICE) &&
      decide (getStrField v "privacy_policy_url" = some PRIVACY_URL)
  | _ => true

/-! ## The collaborator world -/

/-- The text of the first matching CSS selector (already `get_text`'d), if any,
and the `get_text` of every `div/p/li/span/section` tag of a fetched page —
the two views of the rendered document that `fetch_article_html_fallback`
inspects through BeautifulSoup. -/
structure HtmlPage where
  selected : Option String
  blocks : List String

/-- A `lawService.do` response: whether `"법령이 없습니다"` occurs in the raw
text, and the `xmltodict.parse` outcome used by `extract_article_with_full`. -/
structure ServiceDoc where
  hasNoLawMsg : Bool
  parsed : Except String LawDoc

/-- The environment of the handlers: the `OC` key from the environment and the
responses of the network collaborators (an `error` is a raised
`requests`/parsing exception).  Each upstream endpoint is keyed by the request
parameters the code varies; the constant parameters (`target`, `type`,
`pIndex`, `pSize`) are fixed in the source. -/
structure World where
  apiKey : String
  lawSearch : String → Except String (List LawEntry)
  lawService : String → Except String ServiceDoc
  htmlFetch : String → Except String HtmlPage
  lawListFetch : Option String → Option String → Nat → Nat → Except String (List (String × JVal))
  articleListXml : String → Except String (List (String × JVal))
  articleListJson : String → Except String JVal
  articleDetailXml : String → String → Except String (List (String × JVal))
  articleDetailJson : String → String → Except String JVal

/-- `get_law_id(law_name, api_key)` (main.py lines 152-182): one `lawSearch.do`
call, the two selection loops, any exception giving `None`. -/
def get_law_id (w : World) (law_name : String) : Option String × List NetCall :=
  (match w.lawSearch law_name with
   | Except.error _ => none
   | Except.ok laws => get_law_id_select (normalize_law_name law_name) laws,
   [NetCall.lawSearch law_name])

/-! ## `fetch_article_html_fallback` (main.py lines 184-221) -/

/-- Scanner for one position of `re.search(r"제\s*\d+조", t)`. -/
def jeNJoAt (cs : List Char) : Bool :=
  match cs with
  | c0 :: r =>
    if c0 = '제' then
      let r2 := r.dropWhile isPySpace
      let d := r2.takeWhile isDig
      if d.isEmpty then false
      else
        match r2.dropWhile isDig with
        | c1 :: _ => c1 = '조'
        | [] => false
    else false
  | [] => false

/-- `re.search(r"(제\s*\d+조|항|호|가지조문|법령|목적|시행|벌칙)", t)`. -/
def blockPatternHit (t : String) : Bool :=
  t.toList.tails.any jeNJoAt || containsSub "항" t || containsSub "호" t ||
  containsSub "가지조문" t || containsSub "법령" t || containsSub "목적" t ||
  containsSub "시행" t || containsSub "벌칙" t

/-- `fetch_article_html_fallback(law_name_full, article_no)`: one page fetch
(the trace records it), the selector tier, then the filtered text-blocks tier,
then the failure string; any exception yields the error message. -/
def fetch_article_html_fallback (w : World) (law_name_full article_no : String) :
    (String × Option Structure) × List NetCall :=
  let article_url := "https://www.law.go.kr/법령/" ++ pyQuote (pyReplace " " "" law_name_full) ++
    "/" ++ pyQuote (fix_article_no article_no)
  match w.htmlFetch article_url with
  | Except.error e =>
    (("(HTML fallback 오류: " ++ e ++ ")", none), [NetCall.htmlGet article_url])
  | Except.ok page =>
    let blocksResult :=
      let text_blocks := page.blocks.filter
        (fun t => decide (t.toList.length > 20) && blockPatternHit t)
      let all_text := joinSep "\n" text_blocks
      if all_text ≠ "" ∧ all_text.toList.length > 20 then
        (all_text, some (split_article_text_to_structure all_text))
      else ("HTML에서 조문 본문을 찾을 수 없습니다.", none)
    match page.selected with
    | some text =>
      if ¬ (containsSub "조문 본문을 찾을 수 없습니다" text = true) ∧
          (pyStrip text).toList.length > 20 then
        ((text, some (split_article_text_to_structure text)), [NetCall.htmlGet article_url])
      else (blocksResult, [NetCall.htmlGet article_url])
    | none => (blocksResult, [NetCall.htmlGet article_url])

/-! ## `make_markdown_table` (main.py lines 318-334) -/

/-- `.replace("|", "\\|").replace("\n", "<br>")`. -/
def mdEscape (s : String) : String := pyReplace "\n" "<br>" (pyReplace "|" "\\|" s)

/-- `make_markdown_table(law_name, article_no, clause_no, subclause_no, 내용,
법령링크, 조문전체, available_articles)`. -/
def make_markdown_table (law_name article_no : String) (clause_no subclause_no : Option String)
    (naeyong : String) (link : String) (jeonche : String)
    (available_articles : List String) : String :=
  let tbl := "| 항목 | 내용 |\n|------|------|\n| 법령명 | " ++ law_name ++
    " |\n| 조문 | " ++ article_no ++
    " |\n| 항 | " ++ (match clause_no with
      | some c => if c ≠ "" then c ++ "항" else ""
      | none => "") ++
    " |\n| 호 | " ++ (match subclause_no with
      | some c => if c ≠ "" then c ++ "호" else ""
      | none => "") ++
    " |\n| 내용 | " ++ mdEscape naeyong ++
    " |\n| 조문 전체 | " ++ mdEscape jeonche ++
    " |\n| 출처 | [국가법령정보센터 바로가기](" ++ link ++ ") |\n"
  if available_articles ≠ [] then
    tbl ++ "| 조회가능 조문번호 | " ++ joinSep ", " available_articles ++ " |\n"
  else tbl

/-! ## The `/law` handler `get_law_clause` (main.py lines 358-453) -/

/-- One entry of `recent_logs`. -/
structure LogEntry where
  timestamp : String
  client_ip : String
  law_name : Option String
  article_no : Option String
  clause_no : Option String
  subclause_no : Option String
  api_key : String
  status : Option String
  error : Option String
  result : Option JVal

/-- `recent_logs.append(log_entry)` followed by the `> 50` pop. -/
def appendLog (logs : List LogEntry) (e : LogEntry) : List LogEntry :=
  let l := logs ++ [e]
  if l.length > 50 then l.drop 1 else l

/-- Python truthiness of an optional string parameter. -/
def pyTruthyO : Option String → Bool
  | some s => decide (s ≠ "")
  | none => false

/-- Python `a or b` for `a` an optional string. -/
def pyOrS (a : Option String) (b : String) : String :=
  match a with
  | some s => if s ≠ "" then s else b
  | none => b

def hangValToJVal : HangVal → JVal
  | HangVal.plain s => JVal.jstr s
  | HangVal.withHo b hos =>
    JVal.jobj [("본문", JVal.jstr b),
      ("호", JVal.jobj (hos.map (fun p => (p.1, JVal.jstr p.2))))]

/-- JSON serialization of a decomposition structure (as FastAPI serializes the
nested dicts).  Structures produced by the decomposer have depth at most
three, so the fuel never runs out. -/
def structureToJVal : Nat → Structure → JVal
  | 0, _ => JVal.jnull
  | _, Structure.leaf s => JVal.jstr s
  | f+1, Structure.gajiNode l => JVal.jobj (l.map (fun p => (p.1, structureToJVal f p.2)))
  | _, Structure.hangNode pre l =>
    JVal.jobj [("머릿말", JVal.jstr pre),
      ("항", JVal.jobj (l.map (fun q => (q.1, hangValToJVal q.2))))]

def structOptToJVal : Option Structure → JVal
  | none => JVal.jnull
  | some st => structureToJVal 6 st

/-- Outcome of the logic inside the handler's `try` block: HTTP status, JSON
body, network calls made, and the status/error/result fields written into the
log entry. -/
structure CoreOut where
  status : Nat
  body : JVal
  trace : List NetCall
  logStatus : String
  logError : Option String
  logResult : Option JVal

/-- The body of `get_law_clause` after the parameter check (main.py lines
381-453), free of the log list: name resolution, `get_law_id`, the
`lawService.do` fetch, the `법령이 없습니다` check, extraction with the HTML
fallback, and response assembly.  The `result` stored into the log entry is
the same dict object later mutated by `add_privacy_notice`, so the logged
result carries the privacy fields. -/
def get_law_clause_core (w : World) (law_name article_no : String)
    (clause_no subclause_no : Option String) : CoreOut :=
  let law_name_full := resolve_full_law_name law_name
  let gl := get_law_id w law_name_full
  let notFound : CoreOut :=
    { status := 404,
      body := add_privacy_notice (JVal.jobj
        [("error", JVal.jstr "법령 ID 조회 실패"),
         ("안내", JVal.jstr "입력한 법령명이 정확한지 확인하거나, 아래 국가법령정보센터에서 직접 검색해 주세요."),
         ("법령메인", JVal.jstr (make_article_link law_name_full none))]),
      trace := gl.2, logStatus := "error", logError := some "법령 ID 조회 실패",
      logResult := none }
  match gl.1 with
  | none => notFound
  | some lid =>
    if lid = "" then notFound
    else
      match w.lawService lid with
      | Except.error e =>
        { status := 500,
          body := add_privacy_notice (JVal.jobj
            [("error", JVal.jstr "API 호출 실패"), ("에러내용", JVal.jstr e)]),
          trace := gl.2 ++ [NetCall.lawService lid], logStatus := "error",
          logError := some e, logResult := none }
      | Except.ok sd =>
        if sd.hasNoLawMsg then
          { status := 403,
            body := add_privacy_notice (JVal.jobj
              [("error", JVal.jstr "해당 법령은 조회할 수 없습니다."),
               ("법령메인", JVal.jstr (make_article_link law_name_full none))]),
            trace := gl.2 ++ [NetCall.lawService lid], logStatus := "error",
            logError := some "해당 법령은 조회할 수 없습니다.", logResult := none }
        else
          let article_no_norm := normalize_article_no article_no
          let ex := extract_article_with_full (fetch_article_html_fallback w) sd.parsed
            article_no_norm clause_no subclause_no (some law_name_full)
          let er := ex.1
          let shown := pyOrS er.canonical article_no_norm
          let law_url := make_article_link law_name_full (some shown)
          let markdown := make_markdown_table law_name_full shown clause_no subclause_no
            er.content law_url er.fullArticle er.available
          let result := JVal.jobj
            [("source", JVal.jstr "api"),
             ("출처", JVal.jstr "lawService+HTMLfallback+구조화"),
             ("법령명", JVal.jstr law_name_full),
             ("조문", JVal.jstr (if article_no ≠ "" then shown else "")),
             ("항", JVal.jstr (match clause_no with
               | some c => if c ≠ "" then c ++ "항" else ""
               | none => "")),
             ("호", JVal.jstr (match subclause_no with
               | some c => if c ≠ "" then c ++ "호" else ""
               | none => "")),
             ("내용", JVal.jstr er.content),
             ("조문전체", JVal.jstr er.fullArticle),
             ("구조화", structOptToJVal er.structured),
             ("법령링크", JVal.jstr law_url),
             ("markdown", JVal.jstr markdown),
             ("조문목록", JVal.jarr (er.available.map JVal.jstr))]
          let body := add_privacy_notice result
          { status := 200, body := body,
            trace := gl.2 ++ [NetCall.lawService lid] ++ ex.2,
            logStatus := "success", logError := none, logResult := some body }

/-- The result of one request to an endpoint that also mutates `recent_logs`. -/
structure HandlerOut where
  status : Nat
  body : JVal
  trace : List NetCall
  logs : List LogEntry

/-- `get_law_clause(law_name, article_no, clause_no, subclause_no, request)`:
the parameter check (no logging, no network), then the core logic with the log
entry appended.  `now` and `client_ip` are the ambient timestamp and peer
address. -/
def get_law_clause (w : World) (logs : List LogEntry) (now client_ip : String)
    (law_name article_no clause_no subclause_no : Option String) : HandlerOut :=
  if ¬ (pyTruthyO law_name = true ∧ pyTruthyO article_no = true) then
    { status := 200,
      body := add_privacy_notice (JVal.jobj
        [("error", JVal.jstr
          "law_name, article_no 파라미터는 필수입니다. 예시: /law?law_name=학교폭력예방법시행령&article_no=제14조의 2")]),
      trace := [], logs := logs }
  else
    let core := get_law_clause_core w (law_name.getD "") (article_no.getD "")
      clause_no subclause_no
    { status := core.status, body := core.body, trace := core.trace,
      logs := appendLog logs
        { timestamp := now, client_ip := client_ip, law_name := law_name,
          article_no := article_no, clause_no := clause_no,
          subclause_no := subclause_no, api_key := w.apiKey,
          status := some core.logStatus, error := core.logError,
          result := core.logResult } }

/-! ## The remaining endpoints (main.py lines 336-357, 455-566) -/

def root_endpoint : JVal :=
  add_privacy_notice (JVal.jobj [("message", JVal.jstr "School LawBot API is running.")])

def health_check_endpoint : JVal :=
  add_privacy_notice (JVal.jobj [("status", JVal.jstr "ok")])

def ping_endpoint : JVal :=
  add_privacy_notice (JVal.jobj [("status", JVal.jstr "ok")])

def privacy_policy_endpoint : JVal :=
  add_privacy_notice (JVal.jobj
    [("message", JVal.jstr "본 서비스의 개인정보 처리방침은 다음 링크에서 확인할 수 있습니다."),
     ("url", JVal.jstr PRIVACY_URL)])

def jopt : Option String → JVal
  | some s => JVal.jstr s
  | none => JVal.jnull

/-- Serialization of one log entry (the conditional keys appear in assignment
order). -/
def logEntryToJVal (e : LogEntry) : JVal :=
  JVal.jobj
    ([("timestamp", JVal.jstr e.timestamp), ("client_ip", JVal.jstr e.client_ip),
      ("law_name", jopt e.law_name), ("article_no", jopt e.article_no),
      ("clause_no", jopt e.clause_no), ("subclause_no", jopt e.subclause_no),
      ("api_key", JVal.jstr e.api_key)] ++
     (match e.status with | some s => [("status", JVal.jstr s)] | none => []) ++
     (match e.error with | some s => [("error", JVal.jstr s)] | none => []) ++
     (match e.result with | some v => [("result", v)] | none => []))

/-- `/test-log`: the last ten log entries. -/
def test_log_endpoint (logs : List LogEntry) : JVal :=
  add_privacy_notice (JVal.jobj
    [("recent_logs", JVal.jarr ((logs.drop (logs.length - 10)).map logEntryToJVal))])

/-- `/law-list`: `xmltodict.parse` of the search response (always a dict); an
`error` is an uncaught exception propagating to the framework. -/
def get_law_list (w : World) (query law_cls : Option String) (page page_size : Nat) :
    Except String JVal :=
  (w.lawListFetch query law_cls page page_size).map (fun d => add_privacy_notice (JVal.jobj d))

/-- Python `.upper()` (the endpoints compare against `"JSON"`/`"XML"`). -/
def pyUpper (s : String) : String := String.mk (s.toList.map Char.toUpper)

/-- `/article-list`: `res.json()` (arbitrary JSON) or `xmltodict.parse` (a
dict), per the `type` parameter. -/
def get_article_list (w : World) (law_id : String) (ty : String) : Except String JVal :=
  if pyUpper ty = "JSON" then (w.articleListJson law_id).map add_privacy_notice
  else (w.articleListXml law_id).map (fun d => add_privacy_notice (JVal.jobj d))

/-- `/article-detail`. -/
def get_article_detail (w : World) (law_id article_seq : String) (ty : String) :
    Except String JVal :=
  if pyUpper ty = "JSON" then (w.articleDetailJson law_id article_seq).map add_privacy_notice
  else (w.articleDetailXml law_id article_seq).map (fun d => add_privacy_notice (JVal.jobj d))

/-- The `openapi_schemas` constant (main.py lines 526-559). -/
def openapi_schemas : JVal :=
  JVal.jobj
    [("law-list", JVal.jobj
       [("법령목록", JVal.jarr [JVal.jobj
          [("법령ID", JVal.jstr "52413"),
           ("법령명한글", JVal.jstr "학교폭력예방 및 대책에 관한 법률 시행령"),
           ("법령약칭명", JVal.jstr "..."),
           ("공포일자", JVal.jstr "YYYYMMDD"),
           ("시행일자", JVal.jstr "YYYYMMDD")]])]),
     ("article-list", JVal.jobj
       [("조문목록", JVal.jarr [JVal.jobj
          [("조문ID", JVal.jstr "1084544"),
           ("조문번호", JVal.jstr "제14조의3"),
           ("조문제목", JVal.jstr "..."),
           ("조문구분", JVal.jstr "...")]])]),
     ("article-detail", JVal.jobj
       [("조문상세", JVal.jobj
          [("조문ID", JVal.jstr "1084544"),
           ("조문번호", JVal.jstr "제14조의3"),
           ("조문제목", JVal.jstr "..."),
           ("조문내용", JVal.jstr "...")])])]

/-- `/schema`. -/
def schema_endpoint : JVal := add_privacy_notice openapi_schemas

/-! ## Privacy lemmas and claims C4, C8, C10 -/

theorem lookupKey_insert_self :
    ∀ (kvs : List (String × JVal)) (k : String) (v : JVal),
      lookupKey (insertAssoc kvs k v) k = some v := by
  intro kvs k v
  induction kvs with
  | nil => simp [insertAssoc, lookupKey, List.find?]
  | cons p t ih =>
    obtain ⟨k', v'⟩ := p
    by_cases hk : k' = k
    · simp [insertAssoc, hk, lookupKey, List.find?]
    · have hd : (decide (k' = k)) = false := by simp [hk]
      simp only [insertAssoc, if_neg hk, lookupKey, List.find?, hd]
      simp only [lookupKey] at ih
      exact ih

theorem lookupKey_insert_ne :
    ∀ (kvs : List (String × JVal)) (k : String) (v : JVal) (k2 : String), k ≠ k2 →
      lookupKey (insertAssoc kvs k v) k2 = lookupKey kvs k2 := by
  intro kvs k v k2 hne
  have hd0 : (decide (k = k2)) = false := by simp [hne]
  induction kvs with
  | nil => simp [insertAssoc, lookupKey, List.find?, hd0]
  | cons p t ih =>
    obtain ⟨k', v'⟩ := p
    by_cases hk : k' = k
    · subst hk
      simp [insertAssoc, lookupKey, List.find?, hd0]
    · by_cases h2 : k' = k2
      · have hd2 : (decide (k' = k2)) = true := by simp [h2]
        simp [insertAssoc, if_neg hk, lookupKey, List.find?, hd2]
      · have hd2 : (decide (k' = k2)) = false := by simp [h2]
        simp only [insertAssoc, if_neg hk, lookupKey, List.find?, hd2]
        simp only [lookupKey] at ih
        exact ih

/-- `add_privacy_notice` establishes the privacy fields on every dict. -/
theorem hasPrivacy_add : ∀ v : JVal, hasPrivacy (add_privacy_notice v) = true := by
  intro v
  cases v with
  | jobj kvs =>
    have h1 : lookupKey
        (insertAssoc (insertAssoc kvs "privacy_notice" (JVal.jstr PRIVACY_NOTICE))
          "privacy_policy_url" (JVal.jstr PRIVACY_URL)) "privacy_policy_url" =
        some (JVal.jstr PRIVACY_URL) := lookupKey_insert_self _ _ _
    have h2 : lookupKey
        (insertAssoc (insertAssoc kvs "privacy_notice" (JVal.jstr PRIVACY_NOTICE))
          "privacy_policy_url" (JVal.jstr PRIVACY_URL)) "privacy_notice" =
        some (JVal.jstr PRIVACY_NOTICE) := by
      rw [lookupKey_insert_ne _ _ _ _ (by decide)]
      exact lookupKey_insert_self _ _ _
    simp [add_privacy_notice, hasPrivacy, getStrField, h1, h2]
  | jnull => rfl
  | jbool b => rfl
  | jnum n => rfl
  | jstr s => rfl
  | jarr l => rfl

/-- The handler core always wraps its body in `add_privacy_notice`. -/
theorem core_body_privacy (w : World) (ln an : String) (cn sn : Option String) :
    hasPrivacy (get_law_clause_core w ln an cn sn).body = true := by
  unfold get_law_clause_core
  dsimp only
  repeat' split
  all_goals try dsimp only
  all_goals exact hasPrivacy_add _

/-- Every branch of the handler core performs the registry search first. -/
theorem core_trace_starts (w : World) (ln an : String) (cn sn : Option String) :
    (get_law_clause_core w ln an cn sn).trace.head? =
      some (NetCall.lawSearch (resolve_full_law_name ln)) ∧
    (get_law_clause_core w ln an cn sn).trace ≠ [] := by
  unfold get_law_clause_core
  dsimp only
  repeat' split
  all_goals try dsimp only
  all_goals refine ⟨?_, ?_⟩ <;> simp [get_law_id]

/-- An endpoint that may raise: its returned JSON (when it returns) carries
the privacy fields whenever it is an object. -/
def hasPrivacyE (r : Except String JVal) : Bool :=
  match r with
  | Except.error _ => true
  | Except.ok v => hasPrivacy v

/-- Claim C10: every JSON object returned by every endpoint — root, healthz,
ping, privacy-policy, schema, test-log, every branch of /law, /law-list,
/article-list and /article-detail — carries `privacy_notice` and
`privacy_policy_url` set to the fixed constants (for the two JSON-passthrough
endpoints the upstream value may be a non-object, which is returned unchanged;
an `Except.error` is an exception propagating to the framework, with no JSON
body produced by this code). -/
theorem C10_privacy_fields :
    hasPrivacy root_endpoint = true ∧
    hasPrivacy health_check_endpoint = true ∧
    hasPrivacy ping_endpoint = true ∧
    hasPrivacy privacy_policy_endpoint = true ∧
    hasPrivacy schema_endpoint = true ∧
    (∀ logs, hasPrivacy (test_log_endpoint logs) = true) ∧
    (∀ w logs now ip ln an cn sn,
      hasPrivacy (get_law_clause w logs now ip ln an cn sn).body = true) ∧
    (∀ w q lc p ps, hasPrivacyE (get_law_list w q lc p ps) = true) ∧
    (∀ w lid ty, hasPrivacyE (get_article_list w lid ty) = true) ∧
    (∀ w lid seq ty, hasPrivacyE (get_article_detail w lid seq ty) = true) := by
  refine ⟨hasPrivacy_add _, hasPrivacy_add _, hasPrivacy_add _, hasPrivacy_add _,
    hasPrivacy_add _, fun logs => hasPrivacy_add _, ?_, ?_, ?_, ?_⟩
  · intro w logs now ip ln an cn sn
    unfold get_law_clause
    split
    · exact hasPrivacy_add (JVal.jobj
        [("error", JVal.jstr
          "law_name, article_no 파라미터는 필수입니다. 예시: /law?law_name=학교폭력예방법시행령&article_no=제14조의 2")])
    · exact core_body_privacy w (ln.getD "") (an.getD "") cn sn
  · intro w q lc p ps
    unfold get_law_list
    cases h : w.lawListFetch q lc p ps with
    | error e => simp [hasPrivacyE, Except.map]
    | ok d => simp [hasPrivacyE, Except.map, hasPrivacy_add]
  · intro w lid ty
    unfold get_article_list
    by_cases hty : pyUpper ty = "JSON"
    · rw [if_pos hty]
      cases h : w.articleListJson lid with
      | error e => simp [hasPrivacyE, Except.map]
      | ok d => simp [hasPrivacyE, Except.map, hasPrivacy_add]
    · rw [if_neg hty]
      cases h : w.articleListXml lid with
      | error e => simp [hasPrivacyE, Except.map]
      | ok d => simp [hasPrivacyE, Except.map, hasPrivacy_add]
  · intro w lid seq ty
    unfold get_article_detail
    by_cases hty : pyUpper ty = "JSON"
    · rw [if_pos hty]
      cases h : w.articleDetailJson lid seq with
      | error e => simp [hasPrivacyE, Except.map]
      | ok d => simp [hasPrivacyE, Except.map, hasPrivacy_add]
    · rw [if_neg hty]
      cases h : w.articleDetailXml lid seq with
      | error e => simp [hasPrivacyE, Except.map]
      | ok d => simp [hasPrivacyE, Except.map, hasPrivacy_add]

/-! ## Claims C4 and C8: the handler retrieves on every request -/

/-- Claim C4 (amended): `get_law_clause` has no cache — the trace of retrieval
calls is a function of the request and the collaborator world alone (in
particular it does not depend on the log state, the time, or the client), and
every well-formed request, including an identical repeat of one that just
succeeded, begins with a fresh registry search. -/
theorem C4_amended_no_cache (w : World) (logs logs' : List LogEntry)
    (now now' ip ip' : String) (ln an cn sn : Option String)
    (h1 : pyTruthyO ln = true) (h2 : pyTruthyO an = true) :
    (get_law_clause w logs now ip ln an cn sn).trace =
      (get_law_clause w logs' now' ip' ln an cn sn).trace ∧
    (get_law_clause w logs now ip ln an cn sn).trace.head? =
      some (NetCall.lawSearch (resolve_full_law_name (ln.getD ""))) ∧
    (get_law_clause w logs now ip ln an cn sn).trace ≠ [] := by
  unfold get_law_clause
  rw [if_neg (by simp [h1, h2])]
  rw [if_neg (by simp [h1, h2])]
  dsimp only
  exact ⟨rfl, (core_trace_starts w (ln.getD "") (an.getD "") cn sn).1,
    (core_trace_starts w (ln.getD "") (an.getD "") cn sn).2⟩

/-- The registry document served by the concrete world below. -/
def doc4 : LawDoc := ⟨[⟨some "1", some "내용A", []⟩], [], [], [], [], []⟩

/-- A concrete collaborator world: the search resolves `개인정보 보호법` to law
ID `9`, the structured fetch serves `doc4`, the rendered page is offline. -/
def w4 : World :=
  { apiKey := "k",
    lawSearch := fun q =>
      if q = "개인정보 보호법" then
        Except.ok [⟨some "개인정보 보호법", none, none, some "현행", some "9"⟩]
      else Except.error "down",
    lawService := fun lid =>
      if lid = "9" then Except.ok ⟨false, Except.ok doc4⟩ else Except.error "down",
    htmlFetch := fun _ => Except.error "offline",
    lawListFetch := fun _ _ _ _ => Except.error "x",
    articleListXml := fun _ => Except.error "x",
    articleListJson := fun _ => Except.error "x",
    articleDetailXml := fun _ _ => Except.error "x",
    articleDetailJson := fun _ _ => Except.error "x" }

/-- The first request of the C4 counterexample and its repeat. -/
def C4run1 : HandlerOut :=
  get_law_clause w4 [] "t1" "ip" (some "개인정보보호법") (some "1") none none

def C4run2 : HandlerOut :=
  get_law_clause w4 C4run1.logs "t2" "ip" (some "개인정보보호법") (some "1") none none

/-- Claim C4 counterexample: the first request resolves successfully from the
registry; the identical second request, issued against the unchanged world
with the logs of the first, performs the registry search and the structured
fetch again — no retrieval is skipped, because no cache exists. -/
theorem C4_counterexample :
    getStrField C4run1.body "내용" = some "내용A" ∧
    C4run1.status = 200 ∧
    C4run2.trace = [NetCall.lawSearch "개인정보 보호법", NetCall.lawService "9"] ∧
    C4run2.trace ≠ [] := by decide

/-- Witness for the amended C4 at the concrete world. -/
theorem C4_amended_no_cache_witness :
    (get_law_clause w4 [] "t1" "ip" (some "개인정보보호법") (some "1") none none).trace =
      (get_law_clause w4 C4run1.logs "t2" "ip2" (some "개인정보보호법") (some "1") none none).trace ∧
    (get_law_clause w4 [] "t1" "ip" (some "개인정보보호법") (some "1") none none).trace.head? =
      some (NetCall.lawSearch (resolve_full_law_name "개인정보보호법")) ∧
    (get_law_clause w4 [] "t1" "ip" (some "개인정보보호법") (some "1") none none).trace ≠ [] :=
  C4_amended_no_cache w4 [] C4run1.logs "t1" "t2" "ip" "ip2"
    (some "개인정보보호법") (some "1") none none (by decide) (by decide)

/-- Claim C8 (amended): there is no invalid-citation precheck — even when the
`article_no` parameter is unparsable (`parse_article_input "abc"` resolves
nothing), the handler still begins with the registry search; retrieval is not
skipped and no invalid-citation failure is produced before network activity. -/
theorem C8_amended_no_precheck (w : World) (logs : List LogEntry) (now ip : String)
    (ln cn sn : Option String) (h1 : pyTruthyO ln = true) :
    parse_article_input "abc" = ⟨none, none, none, none, false⟩ ∧
    (get_law_clause w logs now ip ln (some "abc") cn sn).trace.head? =
      some (NetCall.lawSearch (resolve_full_law_name (ln.getD ""))) ∧
    (get_law_clause w logs now ip ln (some "abc") cn sn).trace ≠ [] := by
  have hab : pyTruthyO (some "abc") = true := by decide
  refine ⟨by decide, ?_, ?_⟩ <;>
    (unfold get_law_clause
     rw [if_neg (by simp [h1, hab])]
     dsimp only)
  · exact (core_trace_starts w (ln.getD "") "abc" cn sn).1
  · exact (core_trace_starts w (ln.getD "") "abc" cn sn).2

/-- The C8 counterexample request: malformed `article_no = "abc"`. -/
def C8run : HandlerOut :=
  get_law_clause w4 [] "t" "ip" (some "개인정보보호법") (some "abc") none none

/-- Claim C8 counterexample: for `article_no = "abc"` the handler performs the
registry search, the structured fetch, and then the HTML scrape — three
network calls instead of the claimed zero — and the response is the ordinary
200 retrieval result, not an invalid-citation failure. -/
theorem C8_counterexample :
    parse_article_input "abc" = ⟨none, none, none, none, false⟩ ∧
    C8run.trace.take 2 = [NetCall.lawSearch "개인정보 보호법", NetCall.lawService "9"] ∧
    C8run.trace.length = 3 ∧
    C8run.status = 200 := by decide

/-- Witness for the amended C8 at the concrete world. -/
theorem C8_amended_no_precheck_witness :
    parse_article_input "abc" = ⟨none, none, none, none, false⟩ ∧
    (get_law_clause w4 [] "t" "ip" (some "개인정보보호법") (some "abc") none none).trace.head? =
      some (NetCall.lawSearch (resolve_full_law_name "개인정보보호법")) ∧
    (get_law_clause w4 [] "t" "ip" (some "개인정보보호법") (some "abc") none none).trace ≠ [] :=
  C8_amended_no_precheck w4 [] "t" "ip" (some "개인정보보호법") none none (by decide)
